import Mathlib

/-!
# Verification of the poker engine (shared `game.js`, `localGame.js`, deck, hand evaluator)

This file is a shallow embedding, in Lean 4, of the core game logic of the
repository: the card/deck model and seeded shuffle (`src/shared/gameClasses.js`),
the hand evaluator (`getHandRank` / `findBestHand` in `src/shared/utils.js`),
the shared betting engine (`src/shared/game.js`), the pass-and-play engine
(`src/client/js/game/localGame.js`), the room snapshot logic
(`src/shared/room.js`) and the disconnection handling
(`src/server/roomManager.js`).

Modelling conventions:
* JavaScript numbers on the game paths are integers; they are modelled as
  `Int` (chips, bets, pots) or `Nat` (indices, card values).  The one place
  where 64-bit float rounding genuinely matters (the linear-congruential
  step of the seeded shuffle, where `seed * 1103515245` exceeds 2^53) is
  modelled exactly, with an explicit round-to-nearest-even at 53 bits.
* JavaScript `Array.prototype.sort` is stable; it is modelled by Mathlib's
  `List.insertionSort`, which is stable as well.
* Values that JS computes dynamically (strings used as numbers) are modelled
  by an explicit tagged value type `JSVal` so that `>` / `===` keep their
  JavaScript semantics: comparing two strings is lexicographic, everything
  else is numeric.
* Nondeterministic metadata with no bearing on game logic (UUIDs generated by
  `Math.random`, ISO timestamps, per-player statistics counters) is omitted
  from the state records.
* JS exceptions are modelled by `Except`; since the JS engine mutates state
  in place and a `throw` does not roll anything back, the error value carries
  the state as it is at the moment of the throw, so that "a rejected action
  leaves the state unchanged" is a real statement about the order of
  mutations, not an artifact of purity.
-/

/-! ## Cards (`Card` in `gameClasses.js`) -/

inductive Suit where
  | hearts | diamonds | clubs | spades
deriving DecidableEq, Repr

/-- `Card.getRankValue` from `gameClasses.js`: rank string to value 2..14. -/
def getRankValue (rank : String) : Nat :=
  if rank = "2" then 2 else if rank = "3" then 3 else if rank = "4" then 4
  else if rank = "5" then 5 else if rank = "6" then 6 else if rank = "7" then 7
  else if rank = "8" then 8 else if rank = "9" then 9 else if rank = "10" then 10
  else if rank = "J" then 11 else if rank = "Q" then 12 else if rank = "K" then 13
  else if rank = "A" then 14 else 0

/-- A card: suit, rank string, and derived numeric value (`new Card(suit, rank)`). -/
structure Card where
  suit : Suit
  rank : String
  value : Nat
deriving DecidableEq, Repr

/-- The `Card` constructor: value derived from the rank string. -/
def mkCard (suit : Suit) (rank : String) : Card :=
  ⟨suit, rank, getRankValue rank⟩

instance : Inhabited Card := ⟨mkCard Suit.hearts "2"⟩

/-! ## JavaScript dynamic values

`getHandRank` puts either a number or a string into the `high` field of a
rank (object keys are strings, so `Object.keys(...).find(...)` yields a
string, while `ranks[0]` and `Math.max(...)` yield numbers).  `JSVal`
models this, together with the JS `>` and `===` operators. -/

inductive JSVal where
  | num (n : Nat)
  | str (s : String)
deriving DecidableEq, Repr

/-- Decimal digits to a number (the `Number(...)` coercion of the decimal
numerals occurring here). -/
def digitsToNat (acc : Nat) : List Char → Nat
  | [] => acc
  | c :: cs => digitsToNat (acc * 10 + (c.toNat - 48)) cs

/-- Numeric coercion of a `JSVal` (as in `b.rank.high - a.rank.high`);
all strings occurring here are decimal numerals. -/
def JSVal.toNum : JSVal → Nat
  | .num n => n
  | .str s => digitsToNat 0 s.data

/-- JS `<` on strings: lexicographic comparison of the code units. -/
def jsStrLt : List Char → List Char → Bool
  | [], [] => false
  | [], _ :: _ => true
  | _ :: _, [] => false
  | a :: as, b :: bs =>
    if a.toNat < b.toNat then true
    else if b.toNat < a.toNat then false
    else jsStrLt as bs

/-- The JS `>` operator: lexicographic when both operands are strings,
numeric otherwise. -/
def jsGt : JSVal → JSVal → Bool
  | .str a, .str b => jsStrLt b.data a.data
  | a, b => decide (b.toNum < a.toNum)

/-- The JS `===` operator on `high` values: equal type and equal content. -/
def jsEq : JSVal → JSVal → Bool
  | .num a, .num b => a == b
  | .str a, .str b => a == b
  | _, _ => false

/-! ## Hand evaluation (`getHandRank`, `findBestHand` in `utils.js`) -/

/-- The rank record `{ type, value, high }` returned by `getHandRank`. -/
structure HandRank where
  type : String
  value : Nat
  high : JSVal
deriving DecidableEq, Repr

/-- Descending sort of the card values (`.sort((a, b) => b - a)`). -/
def sortValuesDesc (l : List Nat) : List Nat :=
  l.insertionSort (fun a b => b ≤ a)

/-- Ascending sort (used to model the ascending iteration order of
integer-like JS object keys). -/
def sortValuesAsc (l : List Nat) : List Nat :=
  l.insertionSort (fun a b => a ≤ b)

/-- `ranks.every((rank, i) => i === 0 || rank === ranks[i-1] - 1)` on the
descending-sorted values. -/
def isDescendingRun : List Nat → Bool
  | [] => true
  | [_] => true
  | a :: b :: t => (b + 1 == a) && isDescendingRun (b :: t)

/-- The distinct card values in ascending order: JS object keys of
`rankCounts` are integer-like and iterate in ascending numeric order. -/
def distinctValuesAsc (values : List Nat) : List Nat :=
  (sortValuesAsc values).dedup

/-- `getHandRank(cards)` from `utils.js`.  Note that for four-of-a-kind,
full-house, three-of-a-kind and pair the `high` field is a *string*
(`Object.keys(...).find(...)` returns a key string), while for the other
categories it is a number. -/
def getHandRank (cards : List Card) : HandRank :=
  let values := cards.map (·.value)
  let ranks := sortValuesDesc values
  let suits := cards.map (·.suit)
  let isFlush : Bool := match suits with
    | [] => true
    | s :: _ => suits.all (· == s)
  let isStraight := isDescendingRun ranks
  let isWheel : Bool := ranks == [14, 5, 4, 3, 2]
  let keys := distinctValuesAsc values
  let count := fun k => values.count k
  let counts := sortValuesDesc (keys.map count)
  if isFlush && (isStraight || isWheel) then
    ⟨"straight-flush", 8, .num (if isWheel then 5 else ranks.headD 0)⟩
  else if counts.headD 0 == 4 then
    ⟨"four-of-a-kind", 7, .str (toString ((keys.find? (fun k => count k == 4)).getD 0))⟩
  else if counts.headD 0 == 3 && counts.getD 1 0 == 2 then
    ⟨"full-house", 6, .str (toString ((keys.find? (fun k => count k == 3)).getD 0))⟩
  else if isFlush then
    ⟨"flush", 5, .num (ranks.headD 0)⟩
  else if isStraight || isWheel then
    ⟨"straight", 4, .num (if isWheel then 5 else ranks.headD 0)⟩
  else if counts.headD 0 == 3 then
    ⟨"three-of-a-kind", 3, .str (toString ((keys.find? (fun k => count k == 3)).getD 0))⟩
  else if counts.headD 0 == 2 && counts.getD 1 0 == 2 then
    ⟨"two-pair", 2, .num ((keys.filter (fun k => count k == 2)).foldl Nat.max 0)⟩
  else if counts.headD 0 == 2 then
    ⟨"pair", 1, .str (toString ((keys.find? (fun k => count k == 2)).getD 0))⟩
  else
    ⟨"high-card", 0, .num (ranks.headD 0)⟩

/-- All `k`-element combinations of a list, in the order produced by the
five nested index loops of `findBestHand` (combinations containing the
first element come first, indices increasing). -/
def combosN : Nat → List Card → List (List Card)
  | 0, _ => [[]]
  | _ + 1, [] => []
  | n + 1, x :: xs => (combosN n xs).map (x :: ·) ++ combosN (n + 1) xs

/-- The strict "is better" test used by the max-scan in `findBestHand`:
`rank.value > bestRank.value || (rank.value === bestRank.value && rank.high > bestRank.high)`. -/
def rankBetter (r b : HandRank) : Bool :=
  (b.value < r.value) || (r.value == b.value && jsGt r.high b.high)

/-- The result `{ cards, rank }` of `findBestHand`. -/
structure BestHand where
  cards : List Card
  rank : HandRank
deriving DecidableEq, Repr

/-- The max-scan loop of `findBestHand` (`for (const hand of combinations)`
updating `bestHand`/`bestRank` whenever the strict comparison fires). -/
def foldBest (l : List (List Card)) (acc : List Card × HandRank) :
    List Card × HandRank :=
  l.foldl
    (fun a hand =>
      let rank := getHandRank hand
      if rankBetter rank a.2 then (hand, rank) else a) acc

/-- `findBestHand(holeCards, communityCards)` from `utils.js`. -/
def findBestHand (holeCards communityCards : List Card) : BestHand :=
  let allCards := holeCards ++ communityCards
  if allCards.length < 5 then
    ⟨allCards, getHandRank allCards⟩
  else
    let combinations := combosN 5 allCards
    match combinations with
    | [] => ⟨allCards, getHandRank allCards⟩
    | c0 :: _ =>
      let best := foldBest combinations (c0, getHandRank c0)
      ⟨best.1, best.2⟩

section HandEvalChecks

/-- Wheel straight check: A-2-3-4-5 unsuited is a straight with high 5. -/
example :
    getHandRank [mkCard .hearts "A", mkCard .clubs "2", mkCard .spades "3",
      mkCard .diamonds "4", mkCard .hearts "5"] = ⟨"straight", 4, .num 5⟩ := by decide

example :
    getHandRank [mkCard .hearts "2", mkCard .clubs "2", mkCard .spades "2",
      mkCard .diamonds "5", mkCard .hearts "5"] = ⟨"full-house", 6, .str "2"⟩ := by decide

example :
    getHandRank [mkCard .spades "A", mkCard .spades "K", mkCard .spades "Q",
      mkCard .spades "J", mkCard .spades "9"] = ⟨"flush", 5, .num 14⟩ := by decide

end HandEvalChecks

/-! ## The deck and the seeded shuffle (`Deck` in `gameClasses.js`) -/

/-- Suits in the order `createDeck` iterates them. -/
def suitsOrder : List Suit := [.hearts, .diamonds, .clubs, .spades]

/-- Ranks in the order `createDeck` iterates them. -/
def ranksOrder : List String :=
  ["2", "3", "4", "5", "6", "7", "8", "9", "10", "J", "Q", "K", "A"]

/-- `createDeck()`: the 52 canonical cards, suits outer loop, ranks inner. -/
def createDeck : List Card :=
  (suitsOrder.map (fun s => ranksOrder.map (mkCard s))).flatten

/-- JS `ToInt32`: wrap to a signed 32-bit integer. -/
def toInt32 (x : Int) : Int :=
  let m := x.emod 4294967296
  if m < 2147483648 then m else m - 4294967296

/-- One step of `hashCode`: `hash = ((hash << 5) - hash) + char; hash = hash & hash`.
`hash << 5` coerces to int32 and so does `hash & hash`; the subtraction and
addition in between are exact (magnitudes below 2^38). -/
def hashStep (h : Int) (c : Nat) : Int :=
  toInt32 (toInt32 (h * 32) - h + (c : Int))

/-- `Deck.hashCode(str)` from `gameClasses.js` (characters are taken by code
point, which agrees with `charCodeAt` on the basic multilingual plane). -/
def hashCode (s : String) : Nat :=
  (s.data.foldl (fun h ch => hashStep h ch.toNat) 0).natAbs

/-- Round a nonnegative integer to 53 significant bits, ties to even: the
value a JS number (IEEE-754 double) holds after an arithmetic operation whose
exact result is this integer. -/
def roundTo53 (n : Nat) : Nat :=
  if n < 9007199254740992 then n
  else
    let sh := Nat.log2 n - 52
    let q := n >>> sh
    let r := n % (1 <<< sh)
    let half := 1 <<< (sh - 1)
    let q' := if half < r || (r == half && q % 2 == 1) then q + 1 else q
    q' <<< sh

/-- One step of the shuffle's linear congruential generator:
`seed = (seed * 1103515245 + 12345) & 0x7fffffff`, computed in JS doubles
(the product exceeds 2^53, so each operation rounds) and then masked to the
low 31 bits. -/
def nextSeed (s : Nat) : Nat :=
  roundTo53 (roundTo53 (s * 1103515245) + 12345) % 2147483648

/-- The destructuring swap
`[shuffled[currentIndex], shuffled[randomIndex]] = [shuffled[randomIndex], shuffled[currentIndex]]`. -/
def swapL (l : List Card) (i j : Nat) : List Card :=
  (l.set i (l.getD j default)).set j (l.getD i default)

/-- The `while (currentIndex !== 0)` loop of `Deck.shuffle`. -/
def shuffleLoop : Nat → Nat → List Card → List Card
  | 0, _, l => l
  | n + 1, seed, l =>
    let seed' := nextSeed seed
    let randomIndex := seed' % (n + 1)
    shuffleLoop n seed' (swapL l n randomIndex)

/-- A deck: card list plus shuffle and deal bookkeeping (timestamps omitted). -/
structure DeckS where
  cards : List Card
  shuffleHistory : List String
  dealHistory : List (Nat × Option String × String)
deriving DecidableEq, Repr

/-- A fresh deck (also the result of `reset()`). -/
def DeckS.fresh : DeckS := ⟨createDeck, [], []⟩

/-- `Deck.shuffle(randomSeed)`: permute the cards with the seeded Fisher-Yates
loop and append the seed to the shuffle history. -/
def DeckS.shuffle (d : DeckS) (randomSeed : String) : DeckS :=
  { d with
    cards := shuffleLoop d.cards.length (hashCode randomSeed) d.cards
    shuffleHistory := d.shuffleHistory ++ [randomSeed] }

theorem swapL_length (l : List Card) (i j : Nat) : (swapL l i j).length = l.length := by
  simp [swapL]

theorem count_set_add (l : List Card) (i : Nat) (a x : Card) (hi : i < l.length) :
    (l.set i a).count x + (if l.getD i default = x then 1 else 0)
      = l.count x + (if a = x then 1 else 0) := by
  induction l generalizing i with
  | nil => simp at hi
  | cons b t ih =>
    cases i with
    | zero =>
      by_cases hb : b = x <;> by_cases ha : a = x <;>
        simp [List.count_cons, hb, ha]
    | succ i =>
      have hi' : i < t.length := by simpa using hi
      have := ih i hi'
      simp only [List.set_cons_succ, List.count_cons, List.getD_cons_succ]
      omega

theorem count_swapL (l : List Card) (i j : Nat) (x : Card)
    (hi : i < l.length) (hj : j < l.length) :
    (swapL l i j).count x = l.count x := by
  have hj1 : j < (l.set i (l.getD j default)).length := by simpa using hj
  have e2 := count_set_add l i (l.getD j default) x hi
  have e1 := count_set_add (l.set i (l.getD j default)) j (l.getD i default) x hj1
  have hgd : (l.set i (l.getD j default)).getD j default = l.getD j default := by
    rcases eq_or_ne i j with h | h
    · subst h
      rw [List.getD_eq_getElem _ _ hj1, List.getElem_set_self]
    · rw [List.getD_eq_getElem _ _ hj1, List.getElem_set_of_ne h]
      exact (List.getD_eq_getElem l default hj).symm
  rw [hgd] at e1
  unfold swapL
  omega

theorem swapL_perm (l : List Card) (i j : Nat)
    (hi : i < l.length) (hj : j < l.length) : (swapL l i j).Perm l :=
  List.perm_iff_count.mpr (fun x => count_swapL l i j x hi hj)

theorem shuffleLoop_perm : ∀ (n seed : Nat) (l : List Card), n ≤ l.length →
    (shuffleLoop n seed l).Perm l
  | 0, _, _, _ => List.Perm.refl _
  | n + 1, seed, l, h => by
    have hn : n < l.length := h
    have hr : nextSeed seed % (n + 1) < l.length :=
      lt_of_le_of_lt (Nat.le_of_lt_succ (Nat.mod_lt _ (Nat.succ_pos n))) hn
    have hlen : n ≤ (swapL l n (nextSeed seed % (n + 1))).length := by
      rw [swapL_length]; omega
    exact (shuffleLoop_perm n (nextSeed seed) _ hlen).trans
      (swapL_perm l n _ hn hr)

/-- Shuffling any deck permutes its cards (for every seed). -/
theorem shuffle_perm (d : DeckS) (seed : String) :
    (d.shuffle seed).cards.Perm d.cards :=
  shuffleLoop_perm d.cards.length (hashCode seed) d.cards (le_refl _)

/-- The canonical deck has 52 pairwise distinct cards. -/
theorem createDeck_nodup : createDeck.Nodup ∧ createDeck.length = 52 := by decide

/-! ## Pot accounting (`LocalGame._calculateSidePots` in `localGame.js`) -/

/-- A player of the pass-and-play `LocalGame` (id, view counter and seat
position omitted: they do not affect game logic). -/
structure LPlayer where
  name : String
  chips : Int
  holeCards : List Card
  currentBet : Int
  totalBetThisHand : Int
  status : String
deriving DecidableEq, Repr

/-- `p.status === 'active' || p.status === 'all-in'` (the `inHand` flag of a
contribution record). -/
def LPlayer.isInHand (p : LPlayer) : Bool :=
  p.status == "active" || p.status == "all-in"

/-- One entry of the `contribs` array built by `_calculateSidePots`. -/
structure Contrib where
  index : Nat
  total : Int
  inHand : Bool
deriving DecidableEq, Repr

/-- The comparator `(a, b) => a.total - b.total` as an ordering relation
(ascending, stable). -/
def contribLe (a b : Contrib) : Prop := a.total ≤ b.total

instance : DecidableRel contribLe := fun a b => Int.decLe a.total b.total

instance : IsTotal Contrib contribLe := ⟨fun a b => Int.le_total a.total b.total⟩

instance : IsTrans Contrib contribLe := ⟨fun _ _ _ => Int.le_trans⟩

/-- The `contribs` array: players with a positive investment this hand,
keeping their index, total bet and not-folded flag. -/
def contribsOf (players : List LPlayer) : List Contrib :=
  (players.enum.map (fun ip => Contrib.mk ip.1 ip.2.totalBetThisHand ip.2.isInHand)).filter
    (fun c => 0 < c.total)

/-- One pot tier `{ amount, eligible }`. -/
structure Pot where
  amount : Int
  eligible : List Nat
deriving DecidableEq, Repr

/-- The level-peeling loop of `_calculateSidePots`: `contribs` is the full
sorted array (the loop filters it anew at each level), the second argument
is the part of it not yet iterated over, and the third is the `processed`
floor. -/
def sidePotsLoop (contribs : List Contrib) : List Contrib → Int → List Pot
  | [], _ => []
  | c :: rest, processed =>
    if c.total ≤ processed then sidePotsLoop contribs rest processed
    else
      let level := c.total
      let contributors := contribs.filter (fun x => level ≤ x.total)
      let potAmount := (level - processed) * contributors.length
      let eligible := (contributors.filter (·.inHand)).map (·.index)
      ⟨potAmount, eligible⟩ :: sidePotsLoop contribs rest level

/-- `LocalGame._calculateSidePots()`. -/
def calculateSidePots (players : List LPlayer) : List Pot :=
  let sorted := (contribsOf players).insertionSort contribLe
  sidePotsLoop sorted sorted 0

/-- The distinct contribution levels strictly above `processed`, read off an
ascending list of totals. -/
def levelsAbove (processed : Int) : List Int → List Int
  | [] => []
  | t :: ts => if t ≤ processed then levelsAbove processed ts else t :: levelsAbove t ts

/-- The pot tier at contribution level `level` with already-processed floor
`prev`, as derived from the full contribution array. -/
def tierAt (all : List Contrib) (prev level : Int) : Pot :=
  ⟨(level - prev) * (all.filter (fun x => level ≤ x.total)).length,
   ((all.filter (fun x => level ≤ x.total)).filter (·.inHand)).map (·.index)⟩

/-- Tiers for a list of levels, threading the processed floor. -/
def tiersOf (all : List Contrib) : Int → List Int → List Pot
  | _, [] => []
  | prev, l :: ls => tierAt all prev l :: tiersOf all l ls

/-- Sum of the amounts of a list of pots. -/
def potsAmountSum (pots : List Pot) : Int := (pots.map (·.amount)).sum

theorem sum_shift (rest : List Contrib) (p c : Int)
    (h : ∀ x ∈ rest, c ≤ x.total) (hpc : p ≤ c) :
    (rest.map (fun x => max (x.total - p) 0)).sum
      = (rest.map (fun x => max (x.total - c) 0)).sum + rest.length * (c - p) := by
  induction rest with
  | nil => simp
  | cons x xs ih =>
    have hx : c ≤ x.total := h x (by simp)
    have ih' := ih (fun y hy => h y (by simp [hy]))
    simp only [List.map_cons, List.sum_cons, List.length_cons]
    have h1 : max (x.total - p) 0 = x.total - p := by omega
    have h2 : max (x.total - c) 0 = x.total - c := by omega
    rw [h1, h2, ih']
    push_cast
    ring

theorem sidePotsLoop_sum (tail : List Contrib) :
    ∀ (pre : List Contrib) (processed : Int),
    (∀ x ∈ pre, x.total ≤ processed) → tail.Sorted contribLe →
    potsAmountSum (sidePotsLoop (pre ++ tail) tail processed)
      = (tail.map (fun x => max (x.total - processed) 0)).sum := by
  induction tail with
  | nil => intro pre processed _ _; simp [sidePotsLoop, potsAmountSum]
  | cons c rest ih =>
    intro pre processed hpre hsort
    rcases le_or_lt c.total processed with hc | hc
    · have hpre' : ∀ x ∈ pre ++ [c], x.total ≤ processed := by
        intro x hx
        rcases List.mem_append.mp hx with h | h
        · exact hpre x h
        · simp at h; subst h; exact hc
      have := ih (pre ++ [c]) processed hpre' hsort.of_cons
      rw [List.append_assoc] at this
      simp only [List.singleton_append] at this
      simp only [sidePotsLoop, if_pos hc, List.map_cons, List.sum_cons]
      rw [this]
      have : max (c.total - processed) 0 = 0 := by omega
      omega
    · have hrest : ∀ x ∈ rest, c.total ≤ x.total :=
        fun x hx => List.rel_of_sorted_cons hsort x hx
      have hfilter :
          (pre ++ c :: rest).filter (fun x => decide (c.total ≤ x.total)) = c :: rest := by
        rw [List.filter_append]
        have h1 : pre.filter (fun x => decide (c.total ≤ x.total)) = [] := by
          apply List.filter_eq_nil_iff.mpr
          intro x hx
          simp only [decide_eq_true_eq]
          have := hpre x hx
          omega
        have h2 : (c :: rest).filter (fun x => decide (c.total ≤ x.total)) = c :: rest := by
          apply List.filter_eq_self.mpr
          intro x hx
          simp only [decide_eq_true_eq]
          rcases List.mem_cons.mp hx with h | h
          · subst h; exact le_refl _
          · exact hrest x h
        rw [h1, h2, List.nil_append]
      have hpre' : ∀ x ∈ pre ++ [c], x.total ≤ c.total := by
        intro x hx
        rcases List.mem_append.mp hx with h | h
        · exact le_trans (hpre x h) (le_of_lt hc)
        · simp at h; subst h; exact le_refl _
      have hloop := ih (pre ++ [c]) c.total hpre' hsort.of_cons
      rw [List.append_assoc] at hloop
      simp only [List.singleton_append] at hloop
      simp only [sidePotsLoop, if_neg (by omega : ¬ c.total ≤ processed)]
      simp only [potsAmountSum, List.map_cons, List.sum_cons] at hloop ⊢
      rw [hfilter, hloop, sum_shift rest processed c.total hrest (le_of_lt hc)]
      have h1 : max (c.total - processed) 0 = c.total - processed := by omega
      rw [h1]
      simp only [List.length_cons]
      push_cast
      ring

theorem sum_total_filter_pos (l : List Contrib) (h : ∀ c ∈ l, 0 ≤ c.total) :
    ((l.filter (fun c => decide (0 < c.total))).map (fun c => c.total)).sum
      = (l.map (fun c => c.total)).sum := by
  induction l with
  | nil => simp
  | cons c cs ih =>
    have ih' := ih (fun x hx => h x (by simp [hx]))
    by_cases hc : 0 < c.total
    · simp [List.filter_cons, hc, ih']
    · have hc0 : c.total = 0 := by have := h c (by simp); omega
      simp [List.filter_cons, hc, ih', hc0]

/-- Pot conservation at the tier level: the tiers produced by
`_calculateSidePots` sum to the total amount wagered this hand. -/
theorem calculateSidePots_sum (players : List LPlayer)
    (h : ∀ p ∈ players, 0 ≤ p.totalBetThisHand) :
    potsAmountSum (calculateSidePots players)
      = (players.map (·.totalBetThisHand)).sum := by
  unfold calculateSidePots
  have hsort : ((contribsOf players).insertionSort contribLe).Sorted contribLe :=
    List.sorted_insertionSort contribLe _
  have hperm : ((contribsOf players).insertionSort contribLe).Perm (contribsOf players) :=
    List.perm_insertionSort contribLe _
  have hloop := sidePotsLoop_sum ((contribsOf players).insertionSort contribLe) [] 0
    (by simp) hsort
  simp only [List.nil_append] at hloop
  rw [hloop]
  have h1 : (((contribsOf players).insertionSort contribLe).map
        (fun x => max (x.total - 0) 0)).sum
      = ((contribsOf players).map (fun x => max (x.total - 0) 0)).sum :=
    (hperm.map _).sum_eq
  rw [h1]
  have hmem : ∀ c ∈ contribsOf players, 0 < c.total := by
    intro c hc
    unfold contribsOf at hc
    have := List.of_mem_filter hc
    simpa using this
  have h2 : (contribsOf players).map (fun x => max (x.total - 0) 0)
      = (contribsOf players).map (fun c => c.total) := by
    apply List.map_congr_left
    intro c hc
    have := hmem c hc
    omega
  rw [h2]
  unfold contribsOf
  have hbase : ∀ c ∈ players.enum.map
      (fun ip => Contrib.mk ip.1 ip.2.totalBetThisHand ip.2.isInHand), 0 ≤ c.total := by
    intro c hc
    rcases List.mem_map.mp hc with ⟨ip, hip, rfl⟩
    exact h ip.2 (by
      have := List.mem_enum_iff_getElem?.mp hip
      exact List.getElem?_mem this)
  rw [sum_total_filter_pos _ hbase]
  rw [List.map_map]
  have : ((fun c : Contrib => c.total) ∘
      (fun ip : Nat × LPlayer => Contrib.mk ip.1 ip.2.totalBetThisHand ip.2.isInHand))
      = (fun p : LPlayer => p.totalBetThisHand) ∘ Prod.snd := rfl
  rw [this, ← List.map_map, List.enum_map_snd]

theorem sidePotsLoop_eq_tiersOf (all : List Contrib) :
    ∀ (tail : List Contrib) (processed : Int),
    sidePotsLoop all tail processed
      = tiersOf all processed (levelsAbove processed (tail.map (·.total)))
  | [], _ => rfl
  | c :: rest, processed => by
    simp only [sidePotsLoop, List.map_cons, levelsAbove]
    by_cases hc : c.total ≤ processed
    · rw [if_pos hc, if_pos hc, sidePotsLoop_eq_tiersOf all rest processed]
    · rw [if_neg hc, if_neg hc]
      simp only [tiersOf, tierAt]
      rw [sidePotsLoop_eq_tiersOf all rest c.total]

theorem levelsAbove_mem (ts : List Int) :
    ∀ (p x : Int), ts.Sorted (· ≤ ·) → (x ∈ levelsAbove p ts ↔ (x ∈ ts ∧ p < x)) := by
  induction ts with
  | nil => intro p x _; simp [levelsAbove]
  | cons t ts ih =>
    intro p x hsort
    have hts : ∀ y ∈ ts, t ≤ y := List.rel_of_sorted_cons hsort
    by_cases ht : t ≤ p
    · rw [levelsAbove, if_pos ht, ih p x hsort.of_cons]
      constructor
      · rintro ⟨hx, hlt⟩; exact ⟨List.mem_cons_of_mem t hx, hlt⟩
      · rintro ⟨hx, hlt⟩
        rcases List.mem_cons.mp hx with rfl | hx
        · omega
        · exact ⟨hx, hlt⟩
    · rw [levelsAbove, if_neg ht]
      rw [List.mem_cons, ih t x hsort.of_cons, List.mem_cons]
      constructor
      · rintro (rfl | ⟨hx, hlt⟩)
        · exact ⟨Or.inl rfl, by omega⟩
        · exact ⟨Or.inr hx, by omega⟩
      · rintro ⟨(rfl | hx), hlt⟩
        · exact Or.inl rfl
        · rcases lt_or_eq_of_le (hts x hx) with h | h
          · exact Or.inr ⟨hx, h⟩
          · exact Or.inl h.symm

theorem levelsAbove_sorted (ts : List Int) :
    ∀ p, ts.Sorted (· ≤ ·) → (levelsAbove p ts).Sorted (· < ·) := by
  induction ts with
  | nil => intro p _; simp [levelsAbove]
  | cons t ts ih =>
    intro p hsort
    by_cases ht : t ≤ p
    · rw [levelsAbove, if_pos ht]; exact ih p hsort.of_cons
    · rw [levelsAbove, if_neg ht]
      rw [List.sorted_cons]
      refine ⟨fun x hx => ?_, ih t hsort.of_cons⟩
      exact ((levelsAbove_mem ts t x hsort.of_cons).mp hx).2

theorem tiersOf_eq_zip (all : List Contrib) :
    ∀ (ls : List Int) (prev : Int),
    tiersOf all prev ls = (ls.zip (prev :: ls)).map (fun lp => tierAt all lp.2 lp.1)
  | [], _ => rfl
  | l :: ls, prev => by
    simp only [tiersOf, List.zip_cons_cons, List.map_cons]
    rw [tiersOf_eq_zip all ls l]

theorem tiersOf_length (all : List Contrib) (ls : List Int) (prev : Int) :
    (tiersOf all prev ls).length = ls.length := by
  rw [tiersOf_eq_zip]
  simp [List.length_zip]

/-- The sorted contribution array built by `_calculateSidePots`. -/
def sortedContribs (players : List LPlayer) : List Contrib :=
  (contribsOf players).insertionSort contribLe

/-- The distinct positive contribution levels of a hand, ascending. -/
def potLevels (players : List LPlayer) : List Int :=
  levelsAbove 0 ((sortedContribs players).map (·.total))

theorem calculateSidePots_eq_tiers (players : List LPlayer) :
    calculateSidePots players
      = tiersOf (sortedContribs players) 0 (potLevels players) := by
  unfold calculateSidePots potLevels sortedContribs
  exact sidePotsLoop_eq_tiersOf _ _ 0

theorem sortedContribs_sorted (players : List LPlayer) :
    (sortedContribs players).Sorted contribLe :=
  List.sorted_insertionSort contribLe _

theorem sortedContribs_totals_sorted (players : List LPlayer) :
    ((sortedContribs players).map (·.total)).Sorted (· ≤ ·) :=
  (List.pairwise_map).mpr (sortedContribs_sorted players)

theorem mem_sortedContribs (players : List LPlayer) (c : Contrib) :
    c ∈ sortedContribs players
      ↔ (∃ p, players[c.index]? = some p ∧ c.total = p.totalBetThisHand
          ∧ c.inHand = p.isInHand ∧ 0 < c.total) := by
  unfold sortedContribs
  rw [(List.perm_insertionSort contribLe _).mem_iff]
  unfold contribsOf
  rw [List.mem_filter]
  simp only [List.mem_map, decide_eq_true_eq]
  constructor
  · rintro ⟨⟨ip, hip, rfl⟩, hpos⟩
    exact ⟨ip.2, List.mem_enum_iff_getElem?.mp hip, rfl, rfl, hpos⟩
  · rintro ⟨p, hp, htot, hin, hpos⟩
    refine ⟨⟨(c.index, p), List.mem_enum_iff_getElem?.mpr hp, ?_⟩, hpos⟩
    cases c
    simp_all

theorem potLevels_sorted (players : List LPlayer) :
    (potLevels players).Sorted (· < ·) :=
  levelsAbove_sorted _ 0 (sortedContribs_totals_sorted players)

theorem potLevels_mem (players : List LPlayer) (x : Int) :
    x ∈ potLevels players
      ↔ (0 < x ∧ x ∈ players.map (·.totalBetThisHand)) := by
  unfold potLevels
  rw [levelsAbove_mem _ 0 x (sortedContribs_totals_sorted players)]
  simp only [List.mem_map]
  constructor
  · rintro ⟨⟨c, hc, rfl⟩, hpos⟩
    rcases (mem_sortedContribs players c).mp hc with ⟨p, hp, htot, _, _⟩
    exact ⟨hpos, p, List.getElem?_mem hp, htot.symm⟩
  · rintro ⟨hpos, p, hp, rfl⟩
    rcases List.getElem_of_mem hp with ⟨i, hi, rfl⟩
    refine ⟨⟨⟨i, players[i].totalBetThisHand, players[i].isInHand⟩, ?_, rfl⟩, hpos⟩
    exact (mem_sortedContribs players _).mpr
      ⟨players[i], List.getElem?_eq_getElem hi, rfl, rfl, hpos⟩

theorem tier_contributors_count (players : List LPlayer) (lv : Int) (hl : 0 < lv) :
    ((sortedContribs players).filter (fun x => decide (lv ≤ x.total))).length
      = players.countP (fun p => decide (lv ≤ p.totalBetThisHand)) := by
  rw [← List.countP_eq_length_filter]
  unfold sortedContribs
  rw [(List.perm_insertionSort contribLe (contribsOf players)).countP_eq]
  unfold contribsOf
  rw [List.countP_filter, List.countP_map]
  have h1 : players.enum.countP
        ((fun c : Contrib => decide (lv ≤ c.total) && decide (0 < c.total)) ∘
          (fun ip : Nat × LPlayer => Contrib.mk ip.1 ip.2.totalBetThisHand ip.2.isInHand))
      = players.enum.countP
        ((fun p : LPlayer => decide (lv ≤ p.totalBetThisHand)) ∘ Prod.snd) := by
    apply List.countP_congr
    intro ip _
    simp only [Function.comp_apply, Bool.and_eq_true, decide_eq_true_eq]
    omega
  rw [h1, ← List.countP_map, List.enum_map_snd]

theorem tier_eligible_mem (players : List LPlayer) (prev lv : Int) (hl : 0 < lv) (i : Nat) :
    i ∈ (tierAt (sortedContribs players) prev lv).eligible
      ↔ (∃ p, players[i]? = some p ∧ p.isInHand ∧ lv ≤ p.totalBetThisHand) := by
  unfold tierAt
  simp only [List.mem_map, List.mem_filter, decide_eq_true_eq]
  constructor
  · rintro ⟨c, ⟨⟨hc, hle⟩, hin⟩, rfl⟩
    rcases (mem_sortedContribs players c).mp hc with ⟨p, hp, htot, hinh, _⟩
    exact ⟨p, hp, by rw [← hinh]; exact hin, by omega⟩
  · rintro ⟨p, hp, hin, hle⟩
    refine ⟨⟨i, p.totalBetThisHand, p.isInHand⟩, ⟨⟨?_, hle⟩, hin⟩, rfl⟩
    exact (mem_sortedContribs players _).mpr ⟨p, hp, rfl, rfl, by dsimp only; omega⟩

/-! ## The shared betting engine (`Game` in `game.js`) -/

/-- A `Player` from `gameClasses.js` (statistics counters, `lastAction`,
`actionTimeUsed` and the random `playerId`/`userId` split omitted; the id
here is the lookup key used by the engine). -/
structure GPlayer where
  playerId : String
  position : Nat
  chipStack : Int
  holeCards : List Card
  currentBet : Int
  totalBetThisHand : Int
  status : String
  isConnected : Bool
deriving DecidableEq, Repr

instance : Inhabited GPlayer := ⟨⟨"", 0, 0, [], 0, 0, "active", true⟩⟩

/-- `Player.bet(amount)`: clamp to the stack (going all-in when the request
exceeds it) and move chips into the bet counters. -/
def GPlayer.bet (p : GPlayer) (amount : Int) : GPlayer :=
  if p.chipStack < amount then
    { p with status := "all-in", chipStack := 0,
             currentBet := p.currentBet + p.chipStack,
             totalBetThisHand := p.totalBetThisHand + p.chipStack }
  else
    { p with chipStack := p.chipStack - amount,
             currentBet := p.currentBet + amount,
             totalBetThisHand := p.totalBetThisHand + amount }

/-- `Player.fold()`: mark folded and clear the hole cards. -/
def GPlayer.fold (p : GPlayer) : GPlayer :=
  { p with status := "folded", holeCards := [] }

/-- `Player.canAct()`. -/
def GPlayer.canAct (p : GPlayer) : Bool :=
  p.status == "active" && p.isConnected

/-- `Player.resetForNewHand()`. -/
def GPlayer.resetForNewHand (p : GPlayer) : GPlayer :=
  { p with holeCards := [], currentBet := 0, totalBetThisHand := 0,
           status := if 0 < p.chipStack then "active" else "sitting-out" }

/-- The subset of `gameSettings` the engine reads. -/
structure GameSettings where
  startingChips : Int
  smallBlind : Int
  bigBlind : Int
  maxPlayers : Nat
deriving DecidableEq, Repr

/-- A `GameAction` history record (UUID and timestamp omitted). -/
structure GameAction where
  playerId : String
  actionType : String
  amount : Int
  gamePhase : String
  position : Nat
  potSizeBeforeAction : Int
  chipStackBeforeAction : Int
deriving DecidableEq, Repr

/-- A `winners` entry. -/
structure GWinner where
  playerId : String
  amount : Int
  handType : String
deriving DecidableEq, Repr

/-- The mutable state of a `Game` (ids, timestamps and `currentHand` counter
omitted; `pot.sidePots` is omitted because the source never populates it). -/
structure GState where
  gamePhase : String
  players : List GPlayer
  mainPot : Int
  communityCards : List Card
  currentBetAmount : Int
  minimumRaise : Int
  dealerPosition : Nat
  smallBlindPosition : Nat
  bigBlindPosition : Nat
  activePlayerPosition : Nat
  playersInHand : List String
  deck : List Card
  handHistory : List GameAction
  winners : List GWinner
  settings : GameSettings
deriving DecidableEq, Repr

/-- The recurring filter
`this.players.filter(p => this.playersInHand.includes(p.playerId))`. -/
def GState.activePlayers (s : GState) : List GPlayer :=
  s.players.filter (fun p => s.playersInHand.contains p.playerId)

/-- `getPlayer(playerId)`. -/
def GState.getPlayer (s : GState) (pid : String) : Option GPlayer :=
  s.players.find? (fun p => p.playerId == pid)

/-- `canPlayerAct(player)` for an existing player. -/
def GState.canPlayerAct (s : GState) (p : GPlayer) : Bool :=
  s.playersInHand.contains p.playerId && p.canAct

/-- `canPlayerAct(player)` where `player` may be `undefined`. -/
def GState.canPlayerActOpt (s : GState) : Option GPlayer → Bool
  | none => false
  | some p => s.canPlayerAct p

/-- `getCurrentPlayer()`: index into the filtered active-player array. -/
def GState.getCurrentPlayer (s : GState) : Option GPlayer :=
  s.activePlayers[s.activePlayerPosition]?

/-- `isBettingRoundComplete()`.  Note: the source counts the seats whose
bet currently matches the table bet and declares the round complete when at
most one such seat exists; it does not track who has acted. -/
def GState.isBettingRoundComplete (s : GState) : Bool :=
  let actives := s.players.filter
    (fun p => s.playersInHand.contains p.playerId && p.canAct)
  if actives.length ≤ 1 then true
  else
    let playersWhoCanRaise := actives.filter
      (fun p => 0 < p.chipStack && p.currentBet == s.currentBetAmount)
    playersWhoCanRaise.length ≤ 1

/-- The position-scan shared by `nextPlayer()` (a do-while) and the
post-flop branch of `setFirstPlayerToAct()` (a while): starting at `pos`,
advance modulo the array length until an actionable seat is found.  The
source loops forever when no seat is actionable; the model stops after
`fuel` steps, which agrees with the source whenever an actionable seat
exists and `fuel ≥ actives.length`. -/
def seekActionable (s : GState) (actives : List GPlayer) : Nat → Nat → Nat
  | pos, 0 => pos
  | pos, fuel + 1 =>
    if s.canPlayerActOpt actives[pos]? then pos
    else seekActionable s actives ((pos + 1) % actives.length) fuel

/-- `nextPlayer()`. -/
def GState.nextPlayer (s : GState) : GState :=
  let actives := s.activePlayers
  { s with activePlayerPosition :=
      (seekActionable s actives ((s.activePlayerPosition + 1) % actives.length)
        actives.length) }

/-- `setFirstPlayerToAct()`. -/
def GState.setFirstPlayerToAct (s : GState) : GState :=
  let actives := s.activePlayers
  if s.gamePhase == "pre-flop" then
    { s with activePlayerPosition := (s.bigBlindPosition + 1) % actives.length }
  else
    { s with activePlayerPosition :=
        seekActionable s actives s.smallBlindPosition actives.length }

/-- `deck.dealCard(...)` on the raw card list: JS `Array.pop` takes the
*last* element; `none` models the `EmptyDeck` throw. -/
def dealOne (deck : List Card) : Option (Card × List Card) :=
  match deck.getLast? with
  | none => none
  | some c => some (c, deck.dropLast)

/-- The inner reveal loop of `dealCommunityCards(count)`. -/
def GState.dealN (s : GState) : Nat → Except (String × GState) GState
  | 0 => .ok s
  | n + 1 =>
    match dealOne s.deck with
    | none => .error ("Cannot deal from empty deck", s)
    | some (c, d) =>
      GState.dealN { s with deck := d, communityCards := s.communityCards ++ [c] } n

/-- `dealCommunityCards(count)`: burn one card, then reveal `count`. -/
def GState.dealCommunityCards (s : GState) (count : Nat) :
    Except (String × GState) GState :=
  match dealOne s.deck with
  | none => .error ("Cannot deal from empty deck", s)
  | some (_, d) => GState.dealN { s with deck := d } count

/-- An entry of the `playerHands` array of `evaluateHands`. -/
structure PHand where
  playerId : String
  cards : List Card
  rank : HandRank
deriving DecidableEq, Repr

/-- The sort comparator of `evaluateHands`
(`b.rank.value - a.rank.value`, then `b.rank.high - a.rank.high`) as the
"comparator ≤ 0" ordering: best hand first. -/
def pHandLe (a b : PHand) : Prop :=
  b.rank.value < a.rank.value ∨
    (a.rank.value = b.rank.value ∧ b.rank.high.toNum ≤ a.rank.high.toNum)

instance : DecidableRel pHandLe := fun a b => by
  unfold pHandLe; infer_instance

/-- `evaluateHands()`: evaluate every contesting player's best hand, sort
best-first, keep everyone whose `(value, high)` strictly equals the best
(`===` on the `high` field), and give each winner
`Math.floor(mainPot / winners.length)`. -/
def GState.evaluateHands (s : GState) : List GWinner :=
  let playerHands := s.playersInHand.filterMap (fun pid =>
    (s.getPlayer pid).map (fun p =>
      let best := findBestHand p.holeCards s.communityCards
      PHand.mk pid best.cards best.rank))
  let sorted := playerHands.insertionSort pHandLe
  match sorted with
  | [] => []
  | best :: _ =>
    let winners := sorted.filter (fun h =>
      h.rank.value == best.rank.value && jsEq h.rank.high best.rank.high)
    winners.map (fun w =>
      ⟨w.playerId, s.mainPot.fdiv winners.length, w.rank.type⟩)

/-- `distributePot()`: credit each winner's stack (statistics omitted). -/
def GState.distributePot (s : GState) : GState :=
  { s with players := s.players.map (fun p =>
      match s.winners.find? (fun w => w.playerId == p.playerId) with
      | some w => { p with chipStack := p.chipStack + w.amount }
      | none => p) }

/-- `processShowdown()` (the `setTimeout` that auto-starts the next hand is
outside the model). -/
def GState.processShowdown (s : GState) : GState :=
  let actives := s.activePlayers
  let s1 :=
    if actives.length == 1 then
      { s with winners :=
          match actives.head? with
          | some p => [⟨p.playerId, s.mainPot, "unopposed"⟩]
          | none => [] }
    else
      { s with winners := s.evaluateHands }
  let s2 := s1.distributePot
  { s2 with gamePhase := "hand-complete" }

/-- `nextPhase()`: reset the per-round counters, advance one phase, deal
that phase's community cards (or run the showdown after the river), then
seat the first actor. -/
def GState.nextPhase (s : GState) : Except (String × GState) GState :=
  let s0 := { s with
    players := s.players.map (fun p : GPlayer => { p with currentBet := 0 }),
    currentBetAmount := 0,
    minimumRaise := s.settings.bigBlind }
  if s0.gamePhase == "pre-flop" then
    match GState.dealCommunityCards { s0 with gamePhase := "flop" } 3 with
    | .error e => .error e
    | .ok s1 => .ok s1.setFirstPlayerToAct
  else if s0.gamePhase == "flop" then
    match GState.dealCommunityCards { s0 with gamePhase := "turn" } 1 with
    | .error e => .error e
    | .ok s1 => .ok s1.setFirstPlayerToAct
  else if s0.gamePhase == "turn" then
    match GState.dealCommunityCards { s0 with gamePhase := "river" } 1 with
    | .error e => .error e
    | .ok s1 => .ok s1.setFirstPlayerToAct
  else if s0.gamePhase == "river" then
    .ok (GState.processShowdown { s0 with gamePhase := "showdown" })
  else
    .ok s0.setFirstPlayerToAct

/-- `recordAction(playerId, actionType, amount)` (UUID/timestamp omitted,
`player.lastAction` omitted). -/
def GState.recordAction (s : GState) (pid actionType : String) (amount : Int) : GState :=
  match s.getPlayer pid with
  | none => s
  | some p =>
    { s with handHistory := s.handHistory ++
        [⟨pid, actionType, amount, s.gamePhase, p.position, s.mainPot,
          p.chipStack + amount⟩] }

/-- Replace the player with the given id (JS mutates the object in place). -/
def GState.updatePlayer (s : GState) (pid : String) (f : GPlayer → GPlayer) : GState :=
  { s with players := s.players.map (fun p => if p.playerId == pid then f p else p) }

/-- The common tail of `playerAction`: record the action, then either close
the betting round (advancing the phase) or pass the turn. -/
def GState.finishAction (s : GState) (playerId finalActionType : String)
    (actualAmount : Int) : Except (String × GState) (String × Int × GState) :=
  let s1 := s.recordAction playerId finalActionType actualAmount
  if s1.isBettingRoundComplete then
    match s1.nextPhase with
    | .error e => .error e
    | .ok s2 => .ok (finalActionType, actualAmount, s2)
  else
    .ok (finalActionType, actualAmount, s1.nextPlayer)

/-- `Game.playerAction(playerId, actionType, amount)`.  Success returns the
`{ actionType, amount }` result together with the new state; a throw
returns the message together with the state as it is at that moment
(mutations are sequenced exactly as in the source, so a validation throw
carries the unmodified input state). -/
def GState.playerAction (s : GState) (playerId actionType : String) (amount : Int) :
    Except (String × GState) (String × Int × GState) :=
  match s.getPlayer playerId with
  | none => .error ("Player not found", s)
  | some player =>
    match s.getCurrentPlayer with
    | none => .error ("Not your turn", s)
    | some currentPlayer =>
      if currentPlayer.playerId != playerId then .error ("Not your turn", s)
      else if ¬ s.canPlayerAct player then .error ("Player cannot act", s)
      else if actionType == "fold" then
        let s1 := { s.updatePlayer playerId GPlayer.fold with
                    playersInHand := s.playersInHand.filter (· != playerId) }
        s1.finishAction playerId "fold" 0
      else if actionType == "check" then
        if player.currentBet < s.currentBetAmount then
          .error ("Cannot check, must call or fold", s)
        else
          s.finishAction playerId "check" 0
      else if actionType == "call" then
        let actualAmount := min (s.currentBetAmount - player.currentBet) player.chipStack
        let pAfter := player.bet actualAmount
        let s1 := { s.updatePlayer playerId (fun _ => pAfter) with
                    mainPot := s.mainPot + actualAmount }
        let finalActionType :=
          if actualAmount == pAfter.chipStack && 0 < pAfter.chipStack then "all-in"
          else "call"
        s1.finishAction playerId finalActionType actualAmount
      else if actionType == "bet" || actionType == "raise" then
        if 0 < s.currentBetAmount && actionType == "bet" then
          .error ("Cannot bet, must call or raise", s)
        else
          let callAmount := s.currentBetAmount - player.currentBet
          let totalAmount := callAmount + amount
          let actualAmount :=
            if player.chipStack < totalAmount then player.chipStack else totalAmount
          let finalActionType :=
            if player.chipStack < totalAmount then "all-in" else actionType
          if actualAmount < s.minimumRaise + callAmount ∧ actualAmount ≠ player.chipStack then
            .error ("Minimum raise is " ++ toString s.minimumRaise, s)
          else
            let pAfter := player.bet actualAmount
            let s1 := { s.updatePlayer playerId (fun _ => pAfter) with
                        mainPot := s.mainPot + actualAmount,
                        currentBetAmount := pAfter.currentBet,
                        minimumRaise := actualAmount - callAmount }
            s1.finishAction playerId finalActionType actualAmount
      else
        .error ("Invalid action type", s)

/-! ## State snapshots (`getGameState` in `game.js`, `getRoomState` in `room.js`) -/

/-- The game part of a state snapshot (ids, timestamps and settings
omitted).  The `players` entries are spreads of the live player objects
with the hole cards either all kept or all blanked. -/
structure GSnapshot where
  gamePhase : String
  mainPot : Int
  communityCards : List Card
  currentBetAmount : Int
  minimumRaise : Int
  dealerPosition : Nat
  activePlayerPosition : Nat
  players : List GPlayer
  winners : List GWinner
deriving DecidableEq, Repr

/-- `Game.getGameState(excludePrivateInfo)`: one flag controls the hole
cards of *every* player (`holeCards: excludePrivateInfo ? [] : player.holeCards`). -/
def GState.getGameState (s : GState) (excludePrivateInfo : Bool) : GSnapshot :=
  ⟨s.gamePhase, s.mainPot, s.communityCards, s.currentBetAmount, s.minimumRaise,
   s.dealerPosition, s.activePlayerPosition,
   s.players.map (fun p : GPlayer =>
     { p with holeCards := if excludePrivateInfo then [] else p.holeCards }),
   s.winners⟩

/-- The room fields `getRoomState` consults to build the `game` part of the
snapshot. -/
structure RoomS where
  playerIds : List String
  spectatorIds : List String
  game : Option GState
deriving DecidableEq, Repr

/-- The `game` field of `Room.getRoomState(userId, includePrivateInfo)`:
`this.game ? this.game.getGameState(!includePrivateInfo || !isPlayer) : null`
with `isPlayer = userId && this.players.has(userId)`. -/
def RoomS.getRoomStateGame (room : RoomS) (userId : Option String)
    (includePrivateInfo : Bool) : Option GSnapshot :=
  let isPlayer := match userId with
    | some u => room.playerIds.contains u
    | none => false
  room.game.map (fun g => g.getGameState (!includePrivateInfo || !isPlayer))

/-! ## Disconnection handling (`RoomManager.handleDisconnection` in
`roomManager.js`, `Room.updatePlayerSocket` in `room.js`) -/

/-- The immediate effect of `handleDisconnection` on an in-game player:
`gamePlayer.isConnected = false` (the demotion is deferred to a timer). -/
def markDisconnected (p : GPlayer) : GPlayer :=
  { p with isConnected := false }

/-- The deferred grace-window callback scheduled by `handleDisconnection`:
`if (!gamePlayer.isConnected) gamePlayer.status = 'sitting-out'`. -/
def graceTimerFire (p : GPlayer) : GPlayer :=
  if p.isConnected then p else { p with status := "sitting-out" }

/-- The in-game part of `Room.updatePlayerSocket` on reconnection:
`gamePlayer.isConnected = true` and a sitting-out seat with chips is
restored to active. -/
def reconnectPlayer (p : GPlayer) : GPlayer :=
  let p1 := { p with isConnected := true }
  if p1.status == "sitting-out" && 0 < p1.chipStack then
    { p1 with status := "active" }
  else p1

/-! ## The pass-and-play engine (`LocalGame` in `localGame.js`) -/

/-- A `winners` entry of `LocalGame`. -/
structure LWinner where
  playerIndex : Nat
  name : String
  amount : Int
  handType : String
deriving DecidableEq, Repr

/-- The state of a `LocalGame` (id, per-card peek counters and the
UI-facing `getState` projection omitted).  `actedThisRound` models the
`Set` of player indexes. -/
structure LGame where
  players : List LPlayer
  deck : List Card
  communityCards : List Card
  pot : Int
  currentBetAmount : Int
  minimumRaise : Int
  dealerIndex : Nat
  activePlayerIndex : Nat
  gamePhase : String
  winners : List LWinner
  sidePots : List Pot
  actedThisRound : List Nat
  lastAction : Option (Nat × String × Int)
  settings : GameSettings
deriving DecidableEq, Repr

/-- Update the player object at a position (JS mutates it in place). -/
def setPlayer (ps : List LPlayer) (i : Nat) (f : LPlayer → LPlayer) : List LPlayer :=
  match ps[i]? with
  | some p => ps.set i (f p)
  | none => ps

/-- `_activePlayers()`. -/
def LGame.activePlayersL (g : LGame) : List LPlayer :=
  g.players.filter (fun p => p.status != "sitting-out")

/-- `_playersInHand()` with positions (list indices model JS object
identity, as used by `players.indexOf`). -/
def LGame.playersInHandIdx (g : LGame) : List (Nat × LPlayer) :=
  g.players.enum.filter (fun ip => ip.2.status == "active" || ip.2.status == "all-in")

/-- The scan loop of `_nextActiveIndex(fromIndex)`: at most `fuel` steps
forward looking for an `active` seat. -/
def nextActiveLoop (players : List LPlayer) (idx : Nat) : Nat → Option Nat
  | 0 => none
  | fuel + 1 =>
    let idx1 := (idx + 1) % players.length
    if (match players[idx1]? with
        | some p => p.status == "active"
        | none => false) then some idx1
    else nextActiveLoop players idx1 fuel

/-- `_nextActiveIndex(fromIndex)` (returns `fromIndex` as the source's
fallback when no seat is active). -/
def LGame.nextActiveIndex (g : LGame) (fromIndex : Nat) : Nat :=
  (nextActiveLoop g.players fromIndex g.players.length).getD fromIndex

/-- `_smallBlindIndex()`. -/
def LGame.smallBlindIndex (g : LGame) : Nat :=
  if g.activePlayersL.length == 2 then g.dealerIndex
  else g.nextActiveIndex g.dealerIndex

/-- `_bigBlindIndex()`. -/
def LGame.bigBlindIndex (g : LGame) : Nat :=
  g.nextActiveIndex g.smallBlindIndex

/-- `_placeBet(player, amount)`. -/
def LGame.placeBet (g : LGame) (i : Nat) (amount : Int) : LGame :=
  match g.players[i]? with
  | none => g
  | some p =>
    let actual := min amount p.chips
    let p1 := { p with chips := p.chips - actual,
                       currentBet := p.currentBet + actual,
                       totalBetThisHand := p.totalBetThisHand + actual }
    let p2 := if p1.chips == 0 && p1.status == "active" then
        { p1 with status := "all-in" } else p1
    { g with players := g.players.set i p2, pot := g.pot + actual }

/-- `_isBettingRoundComplete()`: every active seat has acted this round and
every active seat's bet matches the table bet. -/
def LGame.isBettingRoundCompleteL (g : LGame) : Bool :=
  let active := g.players.enum.filter (fun ip => ip.2.status == "active")
  if active.length == 0 then true
  else
    (active.all (fun ip => g.actedThisRound.contains ip.1)) &&
    (active.all (fun ip => ip.2.currentBet == g.currentBetAmount))

/-- The reveal loop of `_dealCommunityCards(count)` after the burn. -/
def LGame.dealNL (g : LGame) : Nat → Except (String × LGame) LGame
  | 0 => .ok g
  | n + 1 =>
    match dealOne g.deck with
    | none => .error ("Cannot deal from empty deck", g)
    | some (c, d) =>
      LGame.dealNL { g with deck := d, communityCards := g.communityCards ++ [c] } n

/-- `_dealCommunityCards(count)`: burn one, reveal `count`. -/
def LGame.dealCommunityCardsL (g : LGame) (count : Nat) :
    Except (String × LGame) LGame :=
  match dealOne g.deck with
  | none => .error ("Cannot deal from empty deck", g)
  | some (_, d) => LGame.dealNL { g with deck := d } count

/-- The `while (communityCards.length < 5)` deal-out loop of
`_resolveHand` (burn + one reveal per iteration; `fuel = 5` suffices). -/
def LGame.dealToFive (g : LGame) : Nat → Except (String × LGame) LGame
  | 0 => .ok g
  | fuel + 1 =>
    if g.communityCards.length < 5 then
      match dealOne g.deck with
      | none => .error ("Cannot deal from empty deck", g)
      | some (_, d1) =>
        match dealOne d1 with
        | none => .error ("Cannot deal from empty deck", { g with deck := d1 })
        | some (c, d2) =>
          LGame.dealToFive
            { g with deck := d2, communityCards := g.communityCards ++ [c] } fuel
    else .ok g

/-- An entry of the `evaluated` array of `_resolveHand`. -/
structure LEval where
  index : Nat
  player : LPlayer
  rank : HandRank
  cards : List Card
deriving DecidableEq, Repr

/-- The `evaluated.sort(...)` comparator of `_resolveHand` as an ordering
(identical to the one in `Game.evaluateHands`). -/
def levalLe (a b : LEval) : Prop :=
  b.rank.value < a.rank.value ∨
    (a.rank.value = b.rank.value ∧ b.rank.high.toNum ≤ a.rank.high.toNum)

instance : DecidableRel levalLe := fun a b => by
  unfold levalLe; infer_instance

/-- The `winMap` update: accumulate a winner's share, keyed by player index,
insertion-ordered (a JS `Map`). -/
def addWin (winMap : List LWinner) (i : Nat) (name : String) (share : Int)
    (htype : String) : List LWinner :=
  if winMap.any (·.playerIndex == i) then
    winMap.map (fun w => if w.playerIndex == i then
      { w with amount := w.amount + share } else w)
  else winMap ++ [⟨i, name, share, htype⟩]

/-- The `for (const pot of sidePots)` distribution loop of `_resolveHand`:
for each tier, the best-ranked eligible hands split the tier amount in
floored shares credited to their stacks. -/
def distLoop (evaluated : List LEval) :
    List Pot → List LPlayer → List LWinner → (List LPlayer × List LWinner)
  | [], ps, wm => (ps, wm)
  | pot :: rest, ps, wm =>
    let eligibleEval := evaluated.filter (fun e => pot.eligible.contains e.index)
    match eligibleEval with
    | [] => distLoop evaluated rest ps wm
    | best :: _ =>
      let potWinners := eligibleEval.filter (fun e =>
        e.rank.value == best.rank.value && jsEq e.rank.high best.rank.high)
      let share := pot.amount.fdiv potWinners.length
      let ps1 := potWinners.foldl
        (fun acc e => setPlayer acc e.index (fun p => { p with chips := p.chips + share })) ps
      let wm1 := potWinners.foldl
        (fun acc e => addWin acc e.index e.player.name share e.rank.type) wm
      distLoop evaluated rest ps1 wm1

/-- `_resolveHand()`. -/
def LGame.resolveHand (g : LGame) : Except (String × LGame) LGame :=
  let inHand := g.playersInHandIdx
  if inHand.length == 1 then
    match inHand.head? with
    | some iw =>
      let g1 := { g with
        winners := [⟨iw.1, iw.2.name, g.pot, "unopposed"⟩],
        players := setPlayer g.players iw.1 (fun p => { p with chips := p.chips + g.pot }) }
      .ok { g1 with gamePhase := "showdown" }
    | none => .ok { g with gamePhase := "showdown" }
  else
    match g.dealToFive 5 with
    | .error e => .error e
    | .ok g1 =>
      let evaluated := g1.playersInHandIdx.map (fun ip =>
        let best := findBestHand ip.2.holeCards g1.communityCards
        LEval.mk ip.1 ip.2 best.rank best.cards)
      let sorted := evaluated.insertionSort levalLe
      let pots := calculateSidePots g1.players
      let pw := distLoop sorted pots g1.players []
      .ok { g1 with players := pw.1, sidePots := pots, winners := pw.2,
                    gamePhase := "showdown" }

/-- `_nextPhase()`. -/
def LGame.nextPhaseL (g : LGame) : Except (String × LGame) LGame :=
  let g0 := { g with
    players := g.players.map (fun p : LPlayer => { p with currentBet := 0 }),
    currentBetAmount := 0,
    minimumRaise := g.settings.bigBlind,
    actedThisRound := ([] : List Nat) }
  if g0.gamePhase == "river" then g0.resolveHand
  else
    let afterDeal : Except (String × LGame) LGame :=
      if g0.gamePhase == "pre-flop" then
        LGame.dealCommunityCardsL { g0 with gamePhase := "flop" } 3
      else if g0.gamePhase == "flop" then
        LGame.dealCommunityCardsL { g0 with gamePhase := "turn" } 1
      else if g0.gamePhase == "turn" then
        LGame.dealCommunityCardsL { g0 with gamePhase := "river" } 1
      else .ok g0
    match afterDeal with
    | .error e => .error e
    | .ok g1 =>
      let sbIdx := g1.smallBlindIndex
      let pos := match g1.players[sbIdx]? with
        | some p => if p.status == "active" then sbIdx else g1.nextActiveIndex sbIdx
        | none => g1.nextActiveIndex sbIdx
      .ok { g1 with activePlayerIndex := pos }

/-- `Set.add` on the acted-this-round index set. -/
def addActed (l : List Nat) (i : Nat) : List Nat :=
  if l.contains i then l else l ++ [i]

/-- `LocalGame.playerAction(playerIndex, actionType, amount)`.  As with the
shared engine, the error carries the state at the moment of the throw. -/
def LGame.playerActionL (g : LGame) (playerIndex : Nat) (actionType : String)
    (amount : Int) : Except (String × LGame) LGame :=
  match g.players[playerIndex]? with
  | none => .error ("Invalid player", g)
  | some player =>
    if playerIndex != g.activePlayerIndex then .error ("Not your turn", g)
    else if player.status != "active" then .error ("Player cannot act", g)
    else
      let branch : Except (String × LGame) (String × Int × LGame) :=
        if actionType == "fold" then
          .ok ("fold", 0,
            { g with players := (setPlayer g.players playerIndex
                (fun p : LPlayer => { p with status := "folded" })) })
        else if actionType == "check" then
          if player.currentBet < g.currentBetAmount then
            .error ("Cannot check – must call or fold", g)
          else .ok ("check", 0, g)
        else if actionType == "call" then
          let toCall := min (g.currentBetAmount - player.currentBet) player.chips
          let g1 := g.placeBet playerIndex toCall
          let finalA := match g1.players[playerIndex]? with
            | some p => if p.chips == 0 then "all-in" else "call"
            | none => "call"
          .ok (finalA, toCall, g1)
        else if actionType == "bet" || actionType == "raise" then
          let callPart := g.currentBetAmount - player.currentBet
          let total0 := callPart + amount
          if player.chips < total0 then
            let total := player.chips
            let g1 := g.placeBet playerIndex total
            let newBet := match g1.players[playerIndex]? with
              | some p => p.currentBet
              | none => g1.currentBetAmount
            .ok ("all-in", total,
              { g1 with currentBetAmount := newBet,
                        minimumRaise := max g.minimumRaise (total - callPart),
                        actedThisRound := ([] : List Nat) })
          else if amount < g.minimumRaise ∧ total0 ≠ player.chips then
            .error ("Minimum raise is " ++ toString g.minimumRaise, g)
          else
            let g1 := g.placeBet playerIndex total0
            let newBet := match g1.players[playerIndex]? with
              | some p => p.currentBet
              | none => g1.currentBetAmount
            .ok (actionType, total0,
              { g1 with currentBetAmount := newBet,
                        minimumRaise := max g.minimumRaise (total0 - callPart),
                        actedThisRound := ([] : List Nat) })
        else .error ("Invalid action", g)
      match branch with
      | .error e => .error e
      | .ok fag =>
        let finalA := fag.1
        let actual := fag.2.1
        let g1 := fag.2.2
        let g2 := { g1 with
          actedThisRound := addActed g1.actedThisRound playerIndex,
          lastAction := some (playerIndex, finalA, actual) }
        if g2.playersInHandIdx.length ≤ 1 then g2.resolveHand
        else if g2.isBettingRoundCompleteL then g2.nextPhaseL
        else .ok { g2 with activePlayerIndex := g2.nextActiveIndex g2.activePlayerIndex }

/-! ## Properties of the hand evaluator -/

/-- Which categories put a string into `high` (the `Object.keys(...).find`
categories) and which put a number.  `getHandRank` always respects this, so
two ranks of equal category are compared like-for-like by the JS `>`. -/
def highMatchesValue (r : HandRank) : Prop :=
  match r.high with
  | .str _ => r.value = 7 ∨ r.value = 6 ∨ r.value = 3 ∨ r.value = 1
  | .num _ => r.value = 8 ∨ r.value = 5 ∨ r.value = 4 ∨ r.value = 2 ∨ r.value = 0

theorem getHandRank_highMatches (cards : List Card) :
    highMatchesValue (getHandRank cards) := by
  unfold getHandRank
  dsimp only
  split_ifs <;> simp [highMatchesValue]

theorem sameKind (a b : HandRank) (ha : highMatchesValue a)
    (hb : highMatchesValue b) (h : a.value = b.value) :
    (∃ x y, a.high = .str x ∧ b.high = .str y)
      ∨ (∃ x y, a.high = .num x ∧ b.high = .num y) := by
  unfold highMatchesValue at ha hb
  cases hha : a.high with
  | str x =>
    cases hhb : b.high with
    | str y => exact Or.inl ⟨x, y, rfl, rfl⟩
    | num y => rw [hha] at ha; rw [hhb] at hb; omega
  | num x =>
    cases hhb : b.high with
    | str y => rw [hha] at ha; rw [hhb] at hb; omega
    | num y => exact Or.inr ⟨x, y, rfl, rfl⟩

theorem jsStrLt_cons_iff (a b : Char) (as bs : List Char) :
    jsStrLt (a :: as) (b :: bs) = true
      ↔ (a.toNat < b.toNat ∨ (a.toNat = b.toNat ∧ jsStrLt as bs = true)) := by
  simp only [jsStrLt]
  split_ifs with h1 h2
  · exact iff_of_true rfl (Or.inl h1)
  · apply iff_of_false (by simp)
    rintro (h | ⟨he, _⟩) <;> omega
  · have he : a.toNat = b.toNat := by omega
    constructor
    · intro h
      exact Or.inr ⟨he, h⟩
    · rintro (h | ⟨_, h⟩)
      · omega
      · exact h

theorem jsStrLt_cons_false_iff (a b : Char) (as bs : List Char) :
    jsStrLt (a :: as) (b :: bs) = false
      ↔ (b.toNat < a.toNat ∨ (a.toNat = b.toNat ∧ jsStrLt as bs = false)) := by
  simp only [jsStrLt]
  split_ifs with h1 h2
  · apply iff_of_false (by simp)
    rintro (h | ⟨he, _⟩) <;> omega
  · exact iff_of_true rfl (Or.inl h2)
  · have he : a.toNat = b.toNat := by omega
    constructor
    · intro h
      exact Or.inr ⟨he, h⟩
    · rintro (h | ⟨_, h⟩)
      · omega
      · exact h

theorem jsStrLt_irrefl : ∀ l : List Char, jsStrLt l l = false
  | [] => rfl
  | a :: as => by
    rw [jsStrLt_cons_false_iff]
    exact Or.inr ⟨rfl, jsStrLt_irrefl as⟩

theorem jsStrLt_trans : ∀ (x y z : List Char),
    jsStrLt x y = true → jsStrLt y z = true → jsStrLt x z = true
  | [], [], _, h1, _ => by simp [jsStrLt] at h1
  | [], _ :: _, [], _, h2 => by simp [jsStrLt] at h2
  | [], _ :: _, _ :: _, _, _ => by simp [jsStrLt]
  | _ :: _, [], _, h1, _ => by simp [jsStrLt] at h1
  | _ :: _, _ :: _, [], _, h2 => by simp [jsStrLt] at h2
  | a :: as, b :: bs, c :: cs, h1, h2 => by
    rw [jsStrLt_cons_iff] at h1 h2 ⊢
    rcases h1 with h1 | ⟨he1, hr1⟩
    · rcases h2 with h2 | ⟨he2, _⟩
      · exact Or.inl (by omega)
      · exact Or.inl (by omega)
    · rcases h2 with h2 | ⟨he2, hr2⟩
      · exact Or.inl (by omega)
      · exact Or.inr ⟨by omega, jsStrLt_trans as bs cs hr1 hr2⟩

theorem jsStrLt_false_trans : ∀ (x y z : List Char),
    jsStrLt x y = false → jsStrLt y z = false → jsStrLt x z = false
  | [], _, [], _, _ => rfl
  | _ :: _, _, [], _, _ => rfl
  | [], _ :: _, _ :: _, h1, _ => by simp [jsStrLt] at h1
  | _, [], _ :: _, _, h2 => by simp [jsStrLt] at h2
  | a :: as, b :: bs, c :: cs, h1, h2 => by
    rw [jsStrLt_cons_false_iff] at h1 h2 ⊢
    rcases h1 with h1 | ⟨he1, hr1⟩
    · rcases h2 with h2 | ⟨he2, _⟩
      · exact Or.inl (by omega)
      · exact Or.inl (by omega)
    · rcases h2 with h2 | ⟨he2, hr2⟩
      · exact Or.inl (by omega)
      · exact Or.inr ⟨by omega, jsStrLt_false_trans as bs cs hr1 hr2⟩

theorem rankBetter_irrefl (r : HandRank) : rankBetter r r = false := by
  unfold rankBetter jsGt
  cases r.high <;> simp [jsStrLt_irrefl]

theorem rankBetter_trans (a b c : HandRank)
    (ha : highMatchesValue a) (hb : highMatchesValue b) (hc : highMatchesValue c)
    (h1 : rankBetter a b = true) (h2 : rankBetter b c = true) :
    rankBetter a c = true := by
  simp only [rankBetter, Bool.or_eq_true, Bool.and_eq_true, decide_eq_true_eq,
    beq_iff_eq] at h1 h2 ⊢
  rcases h1 with h1 | ⟨hv1, hg1⟩
  · rcases h2 with h2 | ⟨hv2, _⟩
    · exact Or.inl (by omega)
    · exact Or.inl (by omega)
  · rcases h2 with h2 | ⟨hv2, hg2⟩
    · exact Or.inl (by omega)
    · refine Or.inr ⟨by omega, ?_⟩
      rcases sameKind a b ha hb hv1 with ⟨x, y, hax, hby⟩ | ⟨x, y, hax, hby⟩ <;>
        rcases sameKind b c hb hc hv2 with ⟨y', z, hby', hcz⟩ | ⟨y', z, hby', hcz⟩ <;>
          rw [hby] at hby' <;> cases hby'
      · simp only [hax, hby, hcz] at hg1 hg2 ⊢
        simp only [jsGt] at hg1 hg2 ⊢
        exact jsStrLt_trans _ _ _ hg2 hg1
      · simp only [hax, hby, hcz] at hg1 hg2 ⊢
        simp only [jsGt, JSVal.toNum, decide_eq_true_eq] at hg1 hg2 ⊢
        omega

theorem rankBetter_notBetter_trans (a b c : HandRank)
    (ha : highMatchesValue a) (hb : highMatchesValue b) (hc : highMatchesValue c)
    (h1 : rankBetter a b = false) (h2 : rankBetter b c = false) :
    rankBetter a c = false := by
  simp only [rankBetter, Bool.or_eq_false_iff, Bool.and_eq_false_iff,
    decide_eq_false_iff_not, beq_eq_false_iff_ne, ne_eq] at h1 h2 ⊢
  obtain ⟨hlt1, hg1⟩ := h1
  obtain ⟨hlt2, hg2⟩ := h2
  refine ⟨by omega, ?_⟩
  by_cases hv : a.value = c.value
  · have hv1 : a.value = b.value := by omega
    have hv2 : b.value = c.value := by omega
    have hj1 : jsGt a.high b.high = false := by
      rcases hg1 with h | h
      · exact absurd hv1 h
      · exact h
    have hj2 : jsGt b.high c.high = false := by
      rcases hg2 with h | h
      · exact absurd hv2 h
      · exact h
    refine Or.inr ?_
    rcases sameKind a b ha hb hv1 with ⟨x, y, hax, hby⟩ | ⟨x, y, hax, hby⟩ <;>
      rcases sameKind b c hb hc hv2 with ⟨y', z, hby', hcz⟩ | ⟨y', z, hby', hcz⟩ <;>
        rw [hby] at hby' <;> cases hby'
    · simp only [hax, hby, hcz] at hj1 hj2 ⊢
      simp only [jsGt] at hj1 hj2 ⊢
      exact jsStrLt_false_trans _ _ _ hj2 hj1
    · simp only [hax, hby, hcz] at hj1 hj2 ⊢
      simp only [jsGt, JSVal.toNum, decide_eq_false_iff_not, not_lt] at hj1 hj2 ⊢
      omega
  · exact Or.inl hv

theorem combosN_length : ∀ (k : Nat) (l : List Card),
    (combosN k l).length = l.length.choose k
  | 0, l => by simp [combosN]
  | k + 1, [] => by simp [combosN]
  | k + 1, x :: xs => by
    simp only [combosN, List.length_append, List.length_map,
      combosN_length k xs, combosN_length (k + 1) xs, List.length_cons]
    rw [Nat.choose_succ_succ (xs.length) k]

theorem mem_combosN : ∀ (k : Nat) (l c : List Card),
    c ∈ combosN k l ↔ (c.Sublist l ∧ c.length = k)
  | 0, l, c => by
    simp only [combosN, List.mem_singleton, List.length_eq_zero]
    constructor
    · rintro rfl; exact ⟨List.nil_sublist l, rfl⟩
    · rintro ⟨_, rfl⟩; rfl
  | k + 1, [], c => by
    simp only [combosN, List.not_mem_nil, false_iff, not_and]
    intro hs
    have := List.sublist_nil.mp hs
    subst this
    simp
  | k + 1, x :: xs, c => by
    simp only [combosN, List.mem_append, List.mem_map]
    rw [List.sublist_cons_iff]
    constructor
    · rintro (⟨d, hd, rfl⟩ | hc)
      · rcases (mem_combosN k xs d).mp hd with ⟨hs, hlen⟩
        exact ⟨Or.inr ⟨d, rfl, hs⟩, by simp [hlen]⟩
      · rcases (mem_combosN (k + 1) xs c).mp hc with ⟨hs, hlen⟩
        exact ⟨Or.inl hs, hlen⟩
    · rintro ⟨(hs | ⟨r, rfl, hr⟩), hlen⟩
      · exact Or.inr ((mem_combosN (k + 1) xs c).mpr ⟨hs, hlen⟩)
      · exact Or.inl ⟨r, (mem_combosN k xs r).mpr ⟨hr, by simpa using hlen⟩, rfl⟩

theorem foldBest_spec (l : List (List Card)) :
    ∀ (acc : List Card × HandRank), acc.2 = getHandRank acc.1 →
    (foldBest l acc).2 = getHandRank (foldBest l acc).1
      ∧ (foldBest l acc = acc ∨ (foldBest l acc).1 ∈ l)
      ∧ (∀ c ∈ l, rankBetter (getHandRank c) (foldBest l acc).2 = false)
      ∧ rankBetter acc.2 (foldBest l acc).2 = false := by
  induction l with
  | nil =>
    intro acc hacc
    exact ⟨hacc, Or.inl rfl, by simp, rankBetter_irrefl acc.2⟩
  | cons h t ih =>
    intro acc hacc
    have hstep : foldBest (h :: t) acc
        = foldBest t (if rankBetter (getHandRank h) acc.2 then (h, getHandRank h) else acc) := by
      simp only [foldBest, List.foldl_cons]
    by_cases hcmp : rankBetter (getHandRank h) acc.2 = true
    · rw [hstep, if_pos hcmp]
      obtain ⟨r1, r2, r3, r4⟩ := ih (h, getHandRank h) rfl
      have hrange : highMatchesValue (foldBest t (h, getHandRank h)).2 := by
        rw [r1]; exact getHandRank_highMatches _
      refine ⟨r1, ?_, ?_, ?_⟩
      · rcases r2 with req | rin
        · right; rw [req]; exact List.mem_cons_self h t
        · right; exact List.mem_cons_of_mem _ rin
      · intro c hc
        rcases List.mem_cons.mp hc with rfl | hct
        · exact r4
        · exact r3 c hct
      · by_contra hbad
        have hbad' : rankBetter acc.2 (foldBest t (h, getHandRank h)).2 = true := by
          cases hx : rankBetter acc.2 (foldBest t (h, getHandRank h)).2
          · exact absurd hx hbad
          · rfl
        have htr := rankBetter_trans (getHandRank h) acc.2 _
          (getHandRank_highMatches h)
          (by rw [hacc]; exact getHandRank_highMatches acc.1)
          hrange hcmp hbad'
        rw [r4] at htr
        exact Bool.false_ne_true htr
    · have hcmp' : rankBetter (getHandRank h) acc.2 = false := by
        cases hx : rankBetter (getHandRank h) acc.2
        · rfl
        · exact absurd hx hcmp
      rw [hstep, if_neg hcmp]
      obtain ⟨r1, r2, r3, r4⟩ := ih acc hacc
      have hrange : highMatchesValue (foldBest t acc).2 := by
        rw [r1]; exact getHandRank_highMatches _
      refine ⟨r1, ?_, ?_, r4⟩
      · rcases r2 with req | rin
        · exact Or.inl req
        · exact Or.inr (List.mem_cons_of_mem _ rin)
      · intro c hc
        rcases List.mem_cons.mp hc with rfl | hct
        · exact rankBetter_notBetter_trans (getHandRank c) acc.2 _
            (getHandRank_highMatches c)
            (by rw [hacc]; exact getHandRank_highMatches acc.1)
            hrange hcmp' r4
        · exact r3 c hct

theorem findBestHand_max (hole community : List Card)
    (h5 : ¬ (hole ++ community).length < 5) :
    (findBestHand hole community).cards ∈ combosN 5 (hole ++ community)
    ∧ (findBestHand hole community).rank
        = getHandRank (findBestHand hole community).cards
    ∧ ∀ c ∈ combosN 5 (hole ++ community),
        rankBetter (getHandRank c) (findBestHand hole community).rank = false := by
  have hlen : 5 ≤ (hole ++ community).length := by omega
  have hpos : 0 < (combosN 5 (hole ++ community)).length := by
    rw [combosN_length]
    exact Nat.choose_pos hlen
  unfold findBestHand
  rw [if_neg h5]
  cases hcombos : combosN 5 (hole ++ community) with
  | nil => rw [hcombos] at hpos; simp at hpos
  | cons c0 rest =>
    dsimp only
    obtain ⟨r1, r2, r3, _⟩ := foldBest_spec (c0 :: rest) (c0, getHandRank c0) rfl
    refine ⟨?_, r1, r3⟩
    rcases r2 with req | rin
    · rw [req]; exact List.mem_cons_self c0 rest
    · exact rin

theorem sum_map_const_int {α : Type} (l : List α) (f : α → Int) (c : Int)
    (h : ∀ x ∈ l, f x = c) : (l.map f).sum = l.length * c := by
  induction l with
  | nil => simp
  | cons x xs ih =>
    have hx := h x (by simp)
    have ih' := ih (fun y hy => h y (by simp [hy]))
    simp only [List.map_cons, List.sum_cons, List.length_cons, hx, ih']
    push_cast
    ring

theorem evaluateHands_amount (s : GState) :
    ∀ w ∈ s.evaluateHands, w.amount = s.mainPot.fdiv s.evaluateHands.length := by
  unfold GState.evaluateHands
  dsimp only
  intro w hw
  split at hw
  · simp at hw
  · next best _ heq =>
    rw [List.mem_map] at hw
    obtain ⟨x, hx, rfl⟩ := hw
    simp [List.length_map]

/-! ## Concrete fixtures

A fixed board with no flush and no straight possibilities relevant to the
hands below, and hand states used to evaluate the engines at concrete
inputs. -/

def boardFx : List Card :=
  [mkCard .clubs "2", mkCard .diamonds "7", mkCard .clubs "9",
   mkCard .spades "J", mkCard .hearts "3"]

def settingsFx : GameSettings := ⟨1000, 10, 20, 6⟩

/-- Seven cards holding two trips: three nines and three tens (plus a deuce). -/
def sevenNinesTens : List Card × List Card :=
  ([mkCard .spades "9", mkCard .hearts "9"],
   [mkCard .diamonds "9", mkCard .spades "10", mkCard .hearts "10",
    mkCard .diamonds "10", mkCard .clubs "2"])

/-- The tens-full-of-nines five-card combination from those seven cards
(in the enumeration's order: the two nines kept first). -/
def tensFullCombo : List Card :=
  [mkCard .spades "9", mkCard .hearts "9", mkCard .spades "10",
   mkCard .hearts "10", mkCard .diamonds "10"]

/-- C2 scenario players: seat 0 all-in for 100, seats 1 and 2 in for 300,
seat 0 holding the best hand (aces), then kings, then queens. -/
def trioAllIn : List LPlayer :=
  [⟨"Ann", 0, [mkCard .spades "A", mkCard .hearts "A"], 0, 100, "all-in"⟩,
   ⟨"Bob", 700, [mkCard .spades "K", mkCard .hearts "K"], 0, 300, "active"⟩,
   ⟨"Cal", 700, [mkCard .spades "Q", mkCard .hearts "Q"], 0, 300, "active"⟩]

/-- The C2 scenario as a `LocalGame` at the river with the full pot of 700. -/
def gameTrio : LGame :=
  ⟨trioAllIn, [], boardFx, 700, 0, 20, 0, 1, "river", [], [], [], none, settingsFx⟩

/-- C1 counterexample state: three contestants at showdown, 5 chips wagered
each (pot 15); seats 0 and 1 tie with ace-high, seat 2 has jack-high. -/
def showdownTie3 : GState :=
  ⟨"showdown",
   [⟨"alice", 0, 995, [mkCard .spades "A", mkCard .spades "K"], 0, 5, "active", true⟩,
    ⟨"bea", 1, 995, [mkCard .hearts "A", mkCard .hearts "K"], 0, 5, "active", true⟩,
    ⟨"cy", 2, 995, [mkCard .clubs "4", mkCard .diamonds "5"], 0, 5, "active", true⟩],
   15, boardFx, 0, 20, 0, 1, 2, 0, ["alice", "bea", "cy"], [], [], [], settingsFx⟩

/-- C10 state: two contestants whose best hands share category and high card
(ace-high) but differ in kickers (king versus queen). -/
def showdownKickers : GState :=
  ⟨"showdown",
   [⟨"alice", 0, 995, [mkCard .spades "A", mkCard .spades "K"], 0, 5, "active", true⟩,
    ⟨"dana", 1, 995, [mkCard .diamonds "A", mkCard .clubs "Q"], 0, 5, "active", true⟩,
    ⟨"cy", 2, 995, [mkCard .clubs "4", mkCard .diamonds "5"], 0, 5, "active", true⟩],
   15, boardFx, 0, 20, 0, 1, 2, 0, ["alice", "dana"], [], [], [], settingsFx⟩

/-- C3 shared-engine state: flop, two connected active players with chips,
no outstanding bet, both have already checked (bets equal at 0). -/
def flopCheckAround : GState :=
  ⟨"flop",
   [⟨"alice", 0, 980, [mkCard .spades "A", mkCard .spades "K"], 0, 20, "active", true⟩,
    ⟨"bea", 1, 980, [mkCard .hearts "A", mkCard .hearts "K"], 0, 20, "active", true⟩],
   40, boardFx.take 3, 0, 20, 0, 0, 1, 0, ["alice", "bea"],
   createDeck.take 10, [], [], settingsFx⟩

/-- C3 local-engine state: flop with seat 0 having checked and seat 1 to
act with no outstanding bet. -/
def localFlopCheck : LGame :=
  ⟨[⟨"Ann", 980, [mkCard .spades "A", mkCard .spades "K"], 0, 20, "active"⟩,
    ⟨"Bob", 980, [mkCard .hearts "A", mkCard .hearts "K"], 0, 20, "active"⟩],
   createDeck.take 10, boardFx.take 3, 40, 0, 20, 0, 1, "flop", [], [], [0],
   none, settingsFx⟩

/-- C8/C7 shared-engine state: heads-up pre-flop immediately after the
blinds, seat 0 (dealer/small blind) to act. -/
def headsUpPreflop : GState :=
  ⟨"pre-flop",
   [⟨"alice", 0, 990, [mkCard .spades "A", mkCard .spades "K"], 10, 10, "active", true⟩,
    ⟨"bea", 1, 980, [mkCard .hearts "A", mkCard .hearts "K"], 20, 20, "active", true⟩],
   30, [], 20, 20, 0, 0, 1, 0, ["alice", "bea"], createDeck.take 12, [], [],
   settingsFx⟩

/-- C8 local-engine state: the same heads-up pre-flop spot. -/
def localHeadsUpPreflop : LGame :=
  ⟨[⟨"Ann", 990, [mkCard .spades "A", mkCard .spades "K"], 10, 10, "active"⟩,
    ⟨"Bob", 980, [mkCard .hearts "A", mkCard .hearts "K"], 20, 20, "active"⟩],
   createDeck.take 12, [], 30, 20, 20, 0, 0, "pre-flop", [], [], [], none,
   settingsFx⟩

/-- C7 fixture: the heads-up spot with the to-act seat marked
disconnected (so it fails the eligibility check). -/
def headsUpDisconnected : GState :=
  ⟨"pre-flop",
   [⟨"alice", 0, 990, [mkCard .spades "A", mkCard .spades "K"], 10, 10, "active", false⟩,
    ⟨"bea", 1, 980, [mkCard .hearts "A", mkCard .hearts "K"], 20, 20, "active", true⟩],
   30, [], 20, 20, 0, 0, 1, 0, ["alice", "bea"], createDeck.take 12, [], [],
   settingsFx⟩

/-- C4 room: two seated players, a game in progress, both seats holding
live (un-folded) hole cards. -/
def roomTwoSeated : RoomS :=
  ⟨["alice", "bea"], [],
   some ⟨"pre-flop",
     [⟨"alice", 0, 990, [mkCard .spades "A", mkCard .spades "K"], 10, 10, "active", true⟩,
      ⟨"bea", 1, 980, [mkCard .hearts "A", mkCard .hearts "K"], 20, 20, "active", true⟩],
     30, [], 20, 20, 0, 0, 1, 0, ["alice", "bea"], createDeck.take 12, [], [],
     settingsFx⟩⟩

/-! ## Error propagation in the shared engine -/

theorem dealN_error : ∀ (n : Nat) (s : GState) (m : String) (s' : GState),
    s.dealN n = .error (m, s') → m = "Cannot deal from empty deck"
  | 0, s, m, s', h => by simp [GState.dealN] at h
  | n + 1, s, m, s', h => by
    unfold GState.dealN at h
    split at h
    · simp only [Except.error.injEq, Prod.mk.injEq] at h
      exact h.1.symm
    · exact dealN_error n _ m s' h

theorem dealCommunityCards_error (s : GState) (c : Nat) (m : String) (s' : GState)
    (h : s.dealCommunityCards c = .error (m, s')) :
    m = "Cannot deal from empty deck" := by
  unfold GState.dealCommunityCards at h
  split at h
  · simp only [Except.error.injEq, Prod.mk.injEq] at h
    exact h.1.symm
  · exact dealN_error c _ m s' h

theorem nextPhase_error (s : GState) (m : String) (s' : GState)
    (h : s.nextPhase = .error (m, s')) : m = "Cannot deal from empty deck" := by
  unfold GState.nextPhase at h
  dsimp only at h
  split_ifs at h <;>
    (split at h
     · rename_i e heq
       rw [Except.error.injEq] at h
       rw [h] at heq
       exact dealCommunityCards_error _ _ _ _ heq
     · simp at h)

theorem finishAction_error (s : GState) (pid fat : String) (amt : Int)
    (m : String) (s' : GState)
    (h : s.finishAction pid fat amt = .error (m, s')) :
    m = "Cannot deal from empty deck" := by
  unfold GState.finishAction at h
  dsimp only at h
  split_ifs at h
  split at h
  · rename_i e heq
    rw [Except.error.injEq] at h
    rw [h] at heq
    exact nextPhase_error _ _ _ heq
  · simp at h

set_option maxHeartbeats 2000000 in
/-- Every throw of `playerAction` other than the (unreachable-by-design)
`EmptyDeck` one happens before any mutation: the state at the throw is the
input state. -/
theorem playerAction_error_unchanged (s : GState) (pid atype : String) (amount : Int)
    (m : String) (s' : GState)
    (h : s.playerAction pid atype amount = .error (m, s'))
    (hm : m ≠ "Cannot deal from empty deck") : s' = s := by
  unfold GState.playerAction at h
  dsimp only at h
  split at h
  · simp only [Except.error.injEq, Prod.mk.injEq] at h
    exact h.2.symm
  · split at h
    · simp only [Except.error.injEq, Prod.mk.injEq] at h
      exact h.2.symm
    · split_ifs at h
      all_goals
        first
        | (exact absurd (finishAction_error _ _ _ _ _ _ h) hm)
        | (simp only [Except.error.injEq, Prod.mk.injEq] at h; exact h.2.symm)

/-! ## Claim theorems -/

set_option maxRecDepth 4000 in
/-- C1 (counterexample): at a showdown with three contestants who wagered 5
each (pot 15), two tie for the best hand and each is awarded
`Math.floor(15 / 2) = 7`, so the total awarded is 14, not the 15 wagered —
the claimed conservation of awarded amounts fails. -/
theorem C1_pot_conservation_counterexample :
    2 ≤ showdownTie3.playersInHand.length
    ∧ (showdownTie3.players.map (·.totalBetThisHand)).sum = 15
    ∧ ((showdownTie3.evaluateHands).map (·.amount)).sum = 14
    ∧ ((showdownTie3.evaluateHands).map (·.amount)).sum
        ≠ (showdownTie3.players.map (·.totalBetThisHand)).sum := by
  refine ⟨by decide, by decide, by decide, by decide⟩

/-- C1 (amended): every wagered chip lands in exactly one pot tier — the
tiers of `_calculateSidePots` sum to the players' total bets — but winners
are paid floored equal shares, so the amount actually awarded is
`(number of winners) × floor(pot / number of winners)`, which falls short
of the wagered total by the division remainder whenever the winner count
does not divide the pot. -/
theorem C1_pot_conservation_amended :
    (∀ players : List LPlayer, (∀ p ∈ players, 0 ≤ p.totalBetThisHand) →
      potsAmountSum (calculateSidePots players)
        = (players.map (·.totalBetThisHand)).sum)
    ∧ (∀ s : GState,
        ((s.evaluateHands).map (·.amount)).sum
          = s.evaluateHands.length * (s.mainPot.fdiv s.evaluateHands.length)) := by
  constructor
  · exact calculateSidePots_sum
  · intro s
    exact sum_map_const_int _ _ _ (evaluateHands_amount s)

/-- C1 (witness): the amended conservation applied to the concrete all-in
trio and the concrete tied showdown. -/
theorem C1_pot_conservation_witness :
    potsAmountSum (calculateSidePots trioAllIn)
      = (trioAllIn.map (·.totalBetThisHand)).sum
    ∧ ((showdownTie3.evaluateHands).map (·.amount)).sum
        = showdownTie3.evaluateHands.length
            * (showdownTie3.mainPot.fdiv showdownTie3.evaluateHands.length) :=
  ⟨C1_pot_conservation_amended.1 trioAllIn (by decide),
   C1_pot_conservation_amended.2 showdownTie3⟩

set_option maxRecDepth 4000 in
/-- C3 (code bug in the shared engine; correct in `LocalGame`): after every
active seat has checked with no outstanding bet, `Game.isBettingRoundComplete`
still returns `false` — it counts the seats whose bet matches the table bet
(both of them) instead of checking who has acted, so the check-around never
closes the round, contradicting its own comment.  `LocalGame`, which tracks
`_actedThisRound`, closes the round on the last check and advances exactly
one phase, dealing the turn's single card after one burn (deck 10 → 8,
board 3 → 4). -/
theorem C3_check_round_completion :
    flopCheckAround.isBettingRoundComplete = false
    ∧ ((localFlopCheck.playerActionL 1 "check" 0).toOption.map
        (fun g => (g.gamePhase, g.communityCards.length, g.deck.length)))
        = some ("turn", 4, 8) := by
  refine ⟨by decide, by decide⟩

/-- C4 (counterexample): a seated player who requests the room state with
private info receives a snapshot containing *every* seat's hole cards —
here "alice" receives "bea"'s un-folded hole cards — because
`getGameState(excludePrivateInfo)` blanks either all hole cards or none;
there is no per-requester filtering. -/
theorem C4_hole_cards_counterexample :
    ((roomTwoSeated.getRoomStateGame (some "alice") true).map
      (fun snap => snap.players.map (fun p => (p.playerId, p.status, p.holeCards))))
      = some [("alice", "active", [mkCard .spades "A", mkCard .spades "K"]),
              ("bea", "active", [mkCard .hearts "A", mkCard .hearts "K"])] := by
  decide

/-- C4 (amended): hole-card visibility is all-or-nothing: when private
info is excluded — in particular for any requester who is not a seated
player — the snapshot blanks every seat's hole cards; when a seated player
requests private info the snapshot contains every seat's hole cards,
including other seats' un-folded ones.  Folding itself clears a player's
hole cards, so in any state where folded seats have cleared cards (the
invariant `fold` establishes) no snapshot contains a folded seat's cards. -/
theorem C4_snapshot_amended :
    (∀ (s : GState) (q : GPlayer), q ∈ (s.getGameState true).players → q.holeCards = [])
    ∧ (∀ (room : RoomS) (u : String) (ipi : Bool) (snap : GSnapshot),
        room.playerIds.contains u = false →
        room.getRoomStateGame (some u) ipi = some snap →
        ∀ q ∈ snap.players, q.holeCards = [])
    ∧ (∀ p : GPlayer, (p.fold).status = "folded" ∧ (p.fold).holeCards = [])
    ∧ (∀ (s : GState) (b : Bool),
        (∀ p ∈ s.players, p.status = "folded" → p.holeCards = []) →
        ∀ q ∈ (s.getGameState b).players, q.status = "folded" → q.holeCards = []) := by
  have hidden : ∀ (s : GState) (q : GPlayer),
      q ∈ (s.getGameState true).players → q.holeCards = [] := by
    intro s q hq
    unfold GState.getGameState at hq
    dsimp only at hq
    rw [List.mem_map] at hq
    obtain ⟨p, _, rfl⟩ := hq
    rfl
  refine ⟨hidden, ?_, ?_, ?_⟩
  · intro room u ipi snap hu hsnap q hq
    unfold RoomS.getRoomStateGame at hsnap
    dsimp only at hsnap
    rw [hu] at hsnap
    rcases hgame : room.game with _ | g
    · rw [hgame] at hsnap; simp at hsnap
    · rw [hgame] at hsnap
      simp only [Option.map_some', Option.some.injEq] at hsnap
      subst hsnap
      refine hidden g q ?_
      simpa using hq
  · intro p
    exact ⟨rfl, rfl⟩
  · intro s b hinv q hq hfold
    unfold GState.getGameState at hq
    dsimp only at hq
    rw [List.mem_map] at hq
    obtain ⟨p, hp, rfl⟩ := hq
    cases b
    · simp only at hfold ⊢
      exact hinv p hp hfold
    · rfl

/-- C4 (witness): the amended statement at concrete inputs — an
exclude-private snapshot of the heads-up state hides both seats' hole
cards, and a concrete fold clears cards. -/
theorem C4_snapshot_witness :
    (∀ q ∈ (headsUpPreflop.getGameState true).players, q.holeCards = [])
    ∧ ((GPlayer.fold ⟨"zed", 0, 5, [mkCard .clubs "2"], 0, 0, "active", true⟩).status
        = "folded"
      ∧ (GPlayer.fold ⟨"zed", 0, 5, [mkCard .clubs "2"], 0, 0, "active", true⟩).holeCards
        = []) :=
  ⟨fun q hq => C4_snapshot_amended.1 headsUpPreflop q hq,
   C4_snapshot_amended.2.2.1 ⟨"zed", 0, 5, [mkCard .clubs "2"], 0, 0, "active", true⟩⟩

/-- C9: modelling the 30-second grace window as an explicit deferred event,
a seat that reconnects (`updatePlayerSocket`) before the timer fires is
untouched by the firing — the pending demotion has no effect because the
callback re-checks `isConnected` — while a seat still disconnected when the
timer fires is forcibly set to `sitting-out`. -/
theorem C9_disconnect_grace :
    (∀ p : GPlayer, graceTimerFire (reconnectPlayer p) = reconnectPlayer p)
    ∧ (∀ p : GPlayer, (graceTimerFire (markDisconnected p)).status = "sitting-out") := by
  constructor
  · intro p
    have hconn : (reconnectPlayer p).isConnected = true := by
      unfold reconnectPlayer
      dsimp only
      split_ifs <;> rfl
    unfold graceTimerFire
    rw [if_pos hconn]
  · intro p
    rfl

set_option maxRecDepth 4000 in
/-- C10: the evaluator's rank is only `{category value, single high value}`,
so two hands of equal category and high are an exact tie regardless of
kickers: "alice" (ace-king) and "dana" (ace-queen) both evaluate to
high-card with high 14, their best five-card combinations differ, yet both
are winners and each receives the floored equal share `floor(15/2) = 7`;
in general every winner of a showdown receives the same floored amount. -/
theorem C10_tie_ignores_kickers :
    (findBestHand [mkCard .spades "A", mkCard .spades "K"] boardFx).rank
        = (findBestHand [mkCard .diamonds "A", mkCard .clubs "Q"] boardFx).rank
    ∧ (findBestHand [mkCard .spades "A", mkCard .spades "K"] boardFx).cards
        ≠ (findBestHand [mkCard .diamonds "A", mkCard .clubs "Q"] boardFx).cards
    ∧ showdownKickers.evaluateHands
        = [⟨"alice", 7, "high-card"⟩, ⟨"dana", 7, "high-card"⟩]
    ∧ (∀ s : GState, ∀ w1 ∈ s.evaluateHands, ∀ w2 ∈ s.evaluateHands,
        w1.amount = w2.amount) := by
  refine ⟨by decide, by decide, by decide, ?_⟩
  intro s w1 h1 w2 h2
  rw [evaluateHands_amount s w1 h1, evaluateHands_amount s w2 h2]

set_option maxRecDepth 4000 in
/-- C10 (witness): the equal-share property applied to the two concrete
tied winners of the kicker showdown. -/
theorem C10_tie_ignores_kickers_witness :
    (⟨"alice", 7, "high-card"⟩ : GWinner).amount
      = (⟨"dana", 7, "high-card"⟩ : GWinner).amount :=
  C10_tie_ignores_kickers.2.2.2 showdownKickers
    ⟨"alice", 7, "high-card"⟩ (by decide) ⟨"dana", 7, "high-card"⟩ (by decide)

/-- C6: `shuffle(seed)` is a pure function of the prior card order and the
seed — the permutation it applies consults nothing else (the
linear-congruential stream, including its 53-bit double rounding, is
derived from the seed's hash alone) — and for every seed the shuffled fresh
deck is a permutation of the 52 canonical cards: no duplicates, no
omissions. -/
theorem C6_shuffle_deterministic_permutation :
    (∀ (d1 d2 : DeckS) (seed : String), d1.cards = d2.cards →
      (d1.shuffle seed).cards = (d2.shuffle seed).cards)
    ∧ (∀ seed : String,
        ((DeckS.fresh.shuffle seed).cards).Perm createDeck
        ∧ ((DeckS.fresh.shuffle seed).cards).Nodup
        ∧ ((DeckS.fresh.shuffle seed).cards).length = 52) := by
  constructor
  · intro d1 d2 seed h
    unfold DeckS.shuffle
    dsimp only
    rw [h]
  · intro seed
    have hperm : ((DeckS.fresh.shuffle seed).cards).Perm createDeck :=
      shuffle_perm DeckS.fresh seed
    refine ⟨hperm, ?_, ?_⟩
    · exact hperm.nodup_iff.mpr createDeck_nodup.1
    · rw [hperm.length_eq]
      exact createDeck_nodup.2

/-- C6 (witness): determinism applied at a concrete seed: two shuffles of
fresh decks with the same seed agree. -/
theorem C6_shuffle_witness :
    (DeckS.fresh.shuffle "match-2024").cards = (DeckS.fresh.shuffle "match-2024").cards :=
  C6_shuffle_deterministic_permutation.1 DeckS.fresh DeckS.fresh "match-2024" rfl

set_option maxRecDepth 4000 in
/-- C8 (counterexample): in the shared engine, when the fold of the
second-to-last contestant leaves one player, the engine does *not*
short-circuit to showdown/hand-complete: it merely completes the betting
round and advances one phase, dealing the three flop cards, with no pot
awarded. -/
theorem C8_no_short_circuit_counterexample :
    ((headsUpPreflop.playerAction "alice" "fold" 0).toOption.map
      (fun r => (r.2.2.gamePhase, r.2.2.communityCards.length, r.2.2.winners)))
      = some ("flop", 3, [])
    ∧ ("flop" : String) ≠ "showdown" ∧ ("flop" : String) ≠ "hand-complete" := by
  refine ⟨by decide, by decide, by decide⟩

set_option maxRecDepth 8000 in
/-- C5 (counterexample): the tiebreak is *not* compared numerically.  On
seven cards holding three nines and three tens, `findBestHand` returns the
nines-full house with `high` the *string* `"9"`, even though the tens-full
combination (`high` `"10"`, numerically larger) is among the 21 candidates:
JavaScript compares the two key strings lexicographically and `"10" > "9"`
is false. -/
theorem C5_numeric_tiebreak_counterexample :
    (findBestHand sevenNinesTens.1 sevenNinesTens.2).rank
        = ⟨"full-house", 6, .str "9"⟩
    ∧ tensFullCombo ∈ combosN 5 (sevenNinesTens.1 ++ sevenNinesTens.2)
    ∧ getHandRank tensFullCombo = ⟨"full-house", 6, .str "10"⟩
    ∧ (findBestHand sevenNinesTens.1 sevenNinesTens.2).rank.high.toNum
        < (getHandRank tensFullCombo).high.toNum := by
  refine ⟨by decide, by decide, by decide, by decide⟩

/-- C5 (amended): with fewer than five cards `findBestHand` evaluates them
directly; with five or more it enumerates every five-card combination
(exactly `C(n,5)` of them — the combinations are precisely the length-5
sublists) and returns one of them, with its rank, that is maximal under the
implementation's order: category value first, then the `high` values
compared by JavaScript's `>` — numeric for numeric highs, lexicographic
string comparison for the categories whose high is an `Object.keys` string
(pair, three-of-a-kind, full house, four-of-a-kind). -/
theorem C5_best_hand_amended :
    (∀ hole community : List Card, (hole ++ community).length < 5 →
      findBestHand hole community
        = ⟨hole ++ community, getHandRank (hole ++ community)⟩)
    ∧ (∀ hole community : List Card, ¬ (hole ++ community).length < 5 →
        (findBestHand hole community).cards ∈ combosN 5 (hole ++ community)
        ∧ (findBestHand hole community).rank
            = getHandRank (findBestHand hole community).cards
        ∧ ∀ c ∈ combosN 5 (hole ++ community),
            rankBetter (getHandRank c) (findBestHand hole community).rank = false)
    ∧ (∀ (k : Nat) (l : List Card), (combosN k l).length = l.length.choose k)
    ∧ (∀ (k : Nat) (l c : List Card), c ∈ combosN k l ↔ (c.Sublist l ∧ c.length = k)) := by
  refine ⟨?_, findBestHand_max, combosN_length, mem_combosN⟩
  intro hole community hlt
  unfold findBestHand
  rw [if_pos hlt]

/-- C5 (witness): the amended maximality applied to the seven nines-and-tens
cards: the returned hand is one of the 21 combinations, and there are
exactly `C(7,5) = 21` of them. -/
theorem C5_best_hand_witness :
    (findBestHand sevenNinesTens.1 sevenNinesTens.2).cards
        ∈ combosN 5 (sevenNinesTens.1 ++ sevenNinesTens.2)
    ∧ (combosN 5 (sevenNinesTens.1 ++ sevenNinesTens.2)).length = 21 := by
  refine ⟨(C5_best_hand_amended.2.1 sevenNinesTens.1 sevenNinesTens.2 (by decide)).1, ?_⟩
  rw [C5_best_hand_amended.2.2.1 5 (sevenNinesTens.1 ++ sevenNinesTens.2)]
  decide

/-- C7: every rejected action — unknown player, out of turn, ineligible
actor, illegal check, below-minimum raise without shoving, or unknown
action type — surfaces a distinguishable message and leaves the engine
state exactly as it was (the `EmptyDeck` message, which the engine's
dealing arithmetic never triggers, is the only throw that can follow a
mutation).  The concrete evaluations show the distinct reasons at the
heads-up fixture. -/
theorem C7_rejected_actions :
    (∀ (s : GState) (pid atype : String) (amount : Int) (m : String) (s' : GState),
      s.playerAction pid atype amount = .error (m, s') →
      m ≠ "Cannot deal from empty deck" → s' = s)
    ∧ headsUpPreflop.playerAction "bea" "fold" 0
        = .error ("Not your turn", headsUpPreflop)
    ∧ headsUpPreflop.playerAction "alice" "check" 0
        = .error ("Cannot check, must call or fold", headsUpPreflop)
    ∧ headsUpPreflop.playerAction "alice" "raise" 5
        = .error ("Minimum raise is 20", headsUpPreflop)
    ∧ headsUpPreflop.playerAction "alice" "zap" 0
        = .error ("Invalid action type", headsUpPreflop)
    ∧ headsUpPreflop.playerAction "nobody" "fold" 0
        = .error ("Player not found", headsUpPreflop)
    ∧ headsUpDisconnected.playerAction "alice" "fold" 0
        = .error ("Player cannot act", headsUpDisconnected) := by
  exact ⟨playerAction_error_unchanged, rfl, rfl, rfl, rfl, rfl, rfl⟩

/-- C7 (witness): the no-mutation property applied at the concrete
out-of-turn rejection. -/
theorem C7_rejected_actions_witness : headsUpPreflop = headsUpPreflop :=
  C7_rejected_actions.1 headsUpPreflop "bea" "fold" 0 "Not your turn" headsUpPreflop
    rfl (by decide)

theorem tiersOf_getElem? (all : List Contrib) :
    ∀ (ls : List Int) (prev0 : Int) (k : Nat) (lv prev : Int),
    ls[k]? = some lv → (prev0 :: ls)[k]? = some prev →
    (tiersOf all prev0 ls)[k]? = some (tierAt all prev lv)
  | [], _, k, _, _, hl, _ => by simp at hl
  | l :: ls, prev0, 0, lv, prev, hl, hp => by
    simp only [List.getElem?_cons_zero, Option.some.injEq] at hl hp
    subst hl
    subst hp
    simp only [tiersOf, List.getElem?_cons_zero]
  | l :: ls, prev0, k + 1, lv, prev, hl, hp => by
    simp only [List.getElem?_cons_succ] at hl hp
    simp only [tiersOf, List.getElem?_cons_succ]
    exact tiersOf_getElem? all ls l k lv prev hl hp

set_option maxRecDepth 8000 in
/-- C2: the pot derivation of `_calculateSidePots`.  Generally: the levels
are exactly the distinct positive contribution totals, strictly ascending;
there is one tier per level; the tier at level `lv` (above the previous
level `prev`) has amount `(lv - prev) × (number of players who contributed
at least lv)` and its eligible set is exactly the non-folded players who
contributed at least `lv`.  Concretely, for contributions 100/300/300 with
the 100 all-in: main pot 300 eligible to all three, one side pot 400
eligible to the two 300-contributors, and the all-in player — holding the
best hand — wins only the 300 main pot while the 400 side pot goes to the
better of the other two. -/
theorem C2_side_pot_derivation :
    (∀ players : List LPlayer,
      (potLevels players).Sorted (· < ·)
      ∧ (∀ x : Int, x ∈ potLevels players
          ↔ (0 < x ∧ x ∈ players.map (·.totalBetThisHand)))
      ∧ (calculateSidePots players).length = (potLevels players).length
      ∧ (∀ (k : Nat) (lv prev : Int) (pot : Pot),
          (potLevels players)[k]? = some lv →
          ((0 :: potLevels players) : List Int)[k]? = some prev →
          (calculateSidePots players)[k]? = some pot →
          pot.amount = (lv - prev)
              * (players.countP (fun p => decide (lv ≤ p.totalBetThisHand)))
          ∧ (∀ i : Nat, i ∈ pot.eligible ↔
              (∃ p, players[i]? = some p ∧ p.isInHand ∧ lv ≤ p.totalBetThisHand))))
    ∧ calculateSidePots trioAllIn = [⟨300, [0, 1, 2]⟩, ⟨400, [1, 2]⟩]
    ∧ ((gameTrio.resolveHand).toOption.map
        (fun g => (g.winners, g.players.map (·.chips))))
        = some ([⟨0, "Ann", 300, "pair"⟩, ⟨1, "Bob", 400, "pair"⟩],
                [300, 1100, 700]) := by
  refine ⟨?_, by decide, by decide⟩
  intro players
  refine ⟨potLevels_sorted players, potLevels_mem players, ?_, ?_⟩
  · rw [calculateSidePots_eq_tiers, tiersOf_length]
  · intro k lv prev pot hl hp hpot
    have hlv : 0 < lv :=
      ((potLevels_mem players lv).mp (List.getElem?_mem hl)).1
    rw [calculateSidePots_eq_tiers] at hpot
    rw [tiersOf_getElem? (sortedContribs players) (potLevels players) 0 k lv prev hl hp]
      at hpot
    have hpot' : pot = tierAt (sortedContribs players) prev lv :=
      (Option.some.injEq _ _ ▸ hpot).symm
    subst hpot'
    constructor
    · show (lv - prev) * (((sortedContribs players).filter
          (fun x => decide (lv ≤ x.total))).length : Int) = _
      rw [tier_contributors_count players lv hlv]
    · intro i
      exact tier_eligible_mem players prev lv hlv i

set_option maxRecDepth 4000 in
/-- C2 (witness): the general tier characterization instantiated at the
side pot of the 100/300/300 scenario (level 300 above floor 100). -/
theorem C2_side_pot_witness :
    (⟨400, [1, 2]⟩ : Pot).amount
        = ((300 : Int) - 100)
            * (trioAllIn.countP (fun p => decide ((300 : Int) ≤ p.totalBetThisHand)))
    ∧ (∀ i : Nat, i ∈ (⟨400, [1, 2]⟩ : Pot).eligible ↔
        (∃ p, trioAllIn[i]? = some p ∧ p.isInHand ∧ (300 : Int) ≤ p.totalBetThisHand)) :=
  (C2_side_pot_derivation.1 trioAllIn).2.2.2 1 300 100 ⟨400, [1, 2]⟩
    (by decide) (by decide) (by decide)

/-- C8 (amended): the fast-path exists only in `LocalGame`: when a legal
fold by the acting player leaves exactly one contestant, `playerAction`
resolves the hand immediately — phase `showdown`, the whole pot credited to
the survivor as `"unopposed"`, no community cards dealt.  (The shared
`Game` engine has no such fast-path: as the counterexample shows, it deals
the next street instead.) -/
theorem C8_local_short_circuit (g : LGame) (i : Nat) (p : LPlayer)
    (g2 : LGame) (j : Nat) (w : LPlayer)
    (hp : g.players[i]? = some p)
    (hturn : i = g.activePlayerIndex)
    (hact : p.status = "active")
    (hg2 : g2 = { g with
      players := (setPlayer g.players i
        (fun q : LPlayer => { q with status := "folded" })),
      actedThisRound := addActed g.actedThisRound i,
      lastAction := some (i, "fold", 0) })
    (hone : g2.playersInHandIdx = [(j, w)]) :
    g.playerActionL i "fold" 0 = .ok { g2 with
      winners := [⟨j, w.name, g2.pot, "unopposed"⟩],
      players := (setPlayer g2.players j
        (fun q : LPlayer => { q with chips := q.chips + g2.pot })),
      gamePhase := "showdown" } := by
  unfold LGame.playerActionL
  rw [hp]
  dsimp only
  rw [if_neg (by simp [hturn]), if_neg (by simp [hact]), if_pos (by decide)]
  dsimp only
  have hlen : g2.playersInHandIdx.length ≤ 1 := by rw [hone]; simp
  rw [← hg2]
  rw [if_pos (by simpa using hlen)]
  unfold LGame.resolveHand
  rw [hone]
  dsimp only
  rfl

set_option maxRecDepth 4000 in
/-- C8 (witness): the fast-path applied at the concrete heads-up fold. -/
theorem C8_local_short_circuit_witness :
    localHeadsUpPreflop.playerActionL 0 "fold" 0 = .ok
      { localHeadsUpPreflop with
        players :=
          [⟨"Ann", 990, [mkCard .spades "A", mkCard .spades "K"], 10, 10, "folded"⟩,
           ⟨"Bob", 1010, [mkCard .hearts "A", mkCard .hearts "K"], 20, 20, "active"⟩],
        actedThisRound := [0],
        lastAction := some (0, "fold", 0),
        winners := [⟨1, "Bob", 30, "unopposed"⟩],
        gamePhase := "showdown" } := by
  have h := C8_local_short_circuit localHeadsUpPreflop 0
    ⟨"Ann", 990, [mkCard .spades "A", mkCard .spades "K"], 10, 10, "active"⟩
    { localHeadsUpPreflop with
      players := (setPlayer localHeadsUpPreflop.players 0
        (fun q : LPlayer => { q with status := "folded" })),
      actedThisRound := addActed localHeadsUpPreflop.actedThisRound 0,
      lastAction := some (0, "fold", 0) }
    1 ⟨"Bob", 980, [mkCard .hearts "A", mkCard .hearts "K"], 20, 20, "active"⟩
    (by decide) (by decide) (by decide) rfl (by decide)
  rw [h]
  rfl
